import Mathlib

/-!
# Expression trees of the SQL front end (`Main/SQL/headers/ExprTree.h`)

A shallow embedding of the node hierarchy of `ExprTree.h` together with its three
virtual methods `toString`, `getType` and `semanticChecking`, followed by the
properties of the type checker that are established about it.

Modelling conventions.

* The class hierarchy is a closed inductive type, one constructor per concrete class,
  carrying exactly the private members of the class.  Children are owned subtrees
  (no `shared_ptr` aliasing between two positions of one tree).
* `std::string` is `String`; `operator+` is `++`, `operator==` is `=`.
* `semanticChecking` mutates `attType` of `Identifier` and `PlusOp` nodes and writes
  to `cout`.  It is embedded as a function returning the boolean result, the node
  as it is after the call, and the text written to `cout` during the call.
* `int` payloads are mathematical integers (no arithmetic is ever done on them);
  `double` payloads are IEEE-754 binary64 bit patterns.
-/

/-! ## Payload rendering (`std::to_string`) -/

/-- A `double`, given by its IEEE-754 binary64 bit pattern (taken modulo `2 ^ 64`). -/
structure Double where
  bits : Nat
deriving DecidableEq, Repr

/-- `std::to_string (int)`: the decimal rendering, with a leading `-` when negative. -/
def to_string_int (myVal : Int) : String :=
  match myVal with
  | Int.ofNat m => Nat.repr m
  | Int.negSucc m => "-" ++ Nat.repr (m + 1)

/-- Six decimal places, padded on the left with zeros. -/
def sixDigits (n : Nat) : String :=
  String.mk (List.replicate (6 - (Nat.repr n).length) '0') ++ Nat.repr n

/-- `std::to_string (double)`, that is `printf ("%f")`: the exact binary value rounded
to six decimal places (to nearest, ties to even), or `inf` / `nan`. -/
def to_string_double (myVal : Double) : String :=
  let b := myVal.bits % 2 ^ 64
  let e := b / 2 ^ 52 % 2 ^ 11
  let f := b % 2 ^ 52
  let s := if b / 2 ^ 63 = 1 then "-" else ""
  if e = 2047 then
    (if f = 0 then s ++ "inf" else s ++ "nan")
  else
    let m := if e = 0 then f else 2 ^ 52 + f
    let x := if e = 0 then 1 else e
    let n :=
      if 1075 ≤ x then m * 2 ^ (x - 1075) * 10 ^ 6
      else
        let d := 2 ^ (1075 - x)
        let q := m * 10 ^ 6 / d
        let r := m * 10 ^ 6 % d
        if d < 2 * r ∨ (2 * r = d ∧ q % 2 = 1) then q + 1 else q
    s ++ Nat.repr (n / 10 ^ 6) ++ "." ++ sixDigits (n % 10 ^ 6)

/-! ## The node hierarchy -/

/-- The concrete subclasses of `class ExprTree`, each with its private members.
`Identifier` and `PlusOp` carry the mutable member `attType`. -/
inductive ExprTree where
  | BoolLiteral (myVal : Bool)
  | DoubleLiteral (myVal : Double)
  | IntLiteral (myVal : Int)
  | StringLiteral (myVal : String)
  | Identifier (tableName attName attType : String)
  | MinusOp (lhs rhs : ExprTree)
  | PlusOp (lhs rhs : ExprTree) (attType : String)
  | TimesOp (lhs rhs : ExprTree)
  | DivideOp (lhs rhs : ExprTree)
  | GtOp (lhs rhs : ExprTree)
  | LtOp (lhs rhs : ExprTree)
  | NeqOp (lhs rhs : ExprTree)
  | OrOp (lhs rhs : ExprTree)
  | EqOp (lhs rhs : ExprTree)
  | NotOp (child : ExprTree)
  | SumOp (child : ExprTree)
  | AvgOp (child : ExprTree)
deriving DecidableEq, Repr

namespace ExprTree

/-! ### Constructors whose body does more than copy its arguments -/

/-- `Identifier::Identifier`: the stored type starts as the placeholder `"IDENTIFIER"`. -/
def newIdentifier (tableNameIn attNameIn : String) : ExprTree :=
  Identifier tableNameIn attNameIn "IDENTIFIER"

/-- `PlusOp::PlusOp`: the statement `string attType = "NUMERIC";` in the body declares a
local variable, so the member `attType` keeps its default value, the empty string. -/
def newPlusOp (lhsIn rhsIn : ExprTree) : ExprTree :=
  PlusOp lhsIn rhsIn ""

/-- `strlen`: the number of characters in front of the first NUL of the buffer. -/
def strlen (fromMe : List Char) : Nat :=
  (fromMe.takeWhile (fun c => c ≠ Char.ofNat 0)).length

/-- `StringLiteral::StringLiteral (char *fromMe)` on a buffer holding the characters
`fromMe` followed by the terminating NUL: `fromMe[strlen (fromMe) - 1] = 0` cuts the
string in front of its last character and `string (fromMe + 1)` reads it from the
second character on.  On an empty string `strlen (fromMe) - 1` wraps around and the
write lands outside the buffer: no result. -/
def newStringLiteral (fromMe : List Char) : Option ExprTree :=
  if strlen fromMe = 0 then none
  else some (StringLiteral (String.mk ((fromMe.take (strlen fromMe - 1)).drop 1)))

/-! ### `toString` -/

/-- The virtual method `toString`. -/
def toString : ExprTree → String
  | BoolLiteral myVal => if myVal then "bool[true]" else "bool[false]"
  | DoubleLiteral myVal => "double[" ++ to_string_double myVal ++ "]"
  | IntLiteral myVal => "int[" ++ to_string_int myVal ++ "]"
  | StringLiteral myVal => "string[" ++ myVal ++ "]"
  | Identifier tableName attName _ => "[" ++ tableName ++ "_" ++ attName ++ "]"
  | MinusOp lhs rhs => "- (" ++ toString lhs ++ ", " ++ toString rhs ++ ")"
  | PlusOp lhs rhs _ => "+ (" ++ toString lhs ++ ", " ++ toString rhs ++ ")"
  | TimesOp lhs rhs => "* (" ++ toString lhs ++ ", " ++ toString rhs ++ ")"
  | DivideOp lhs rhs => "/ (" ++ toString lhs ++ ", " ++ toString rhs ++ ")"
  | GtOp lhs rhs => "> (" ++ toString lhs ++ ", " ++ toString rhs ++ ")"
  | LtOp lhs rhs => "< (" ++ toString lhs ++ ", " ++ toString rhs ++ ")"
  | NeqOp lhs rhs => "!= (" ++ toString lhs ++ ", " ++ toString rhs ++ ")"
  | OrOp lhs rhs => "|| (" ++ toString lhs ++ ", " ++ toString rhs ++ ")"
  | EqOp lhs rhs => "== (" ++ toString lhs ++ ", " ++ toString rhs ++ ")"
  | NotOp child => "!(" ++ toString child ++ ")"
  | SumOp child => "sum(" ++ toString child ++ ")"
  | AvgOp child => "avg(" ++ toString child ++ ")"

/-! ### `getType` -/

/-- The virtual method `getType`. -/
def getType : ExprTree → String
  | BoolLiteral _ => "BOOL"
  | DoubleLiteral _ => "NUMERIC"
  | IntLiteral _ => "NUMERIC"
  | StringLiteral _ => "STRING"
  | Identifier _ _ attType => attType
  | MinusOp _ _ => "NUMERIC"
  | PlusOp _ _ attType => attType
  | TimesOp _ _ => "NUMERIC"
  | DivideOp _ _ => "NUMERIC"
  | GtOp _ _ => "BOOL"
  | LtOp _ _ => "BOOL"
  | NeqOp _ _ => "BOOL"
  | OrOp _ _ => "BOOL"
  | EqOp _ _ => "BOOL"
  | NotOp _ => "BOOL"
  | SumOp _ => "NUMERIC"
  | AvgOp _ => "NUMERIC"

end ExprTree

/-! ## The collaborators of `semanticChecking` -/

/-- Modelled from the spec: the catalog store (`MyDB_Catalog.h` is not among the
sources).  "Catalog lookup (consumed): `lookup(key: string) -> (found: bool, value:
string)`".  `getString key` is `some value` when the call
`catalog->getString (key, value)` returns true and `none` when it returns false. -/
structure MyDB_Catalog where
  getString : String → Option String

/-- The argument `tablesToProcess`: `(physical table name, alias)` pairs in FROM order. -/
abbrev TableList := List (String × String)

/-- What one call of `semanticChecking` leaves behind: the returned boolean, the node
after the call (with the `attType` members it assigned), and the text sent to `cout`. -/
structure Checked where
  result : Bool
  self : ExprTree
  cout : String
deriving DecidableEq, Repr

namespace ExprTree

/-- The `for` loop of `Identifier::semanticChecking`: the pair `(found, tbl2process_1)`
when the loop is left (by `break` at the first entry whose alias is `tableName`, or at
the end of the vector). -/
def scanTables (tableName : String) : TableList → Bool × String
  | [] => (false, "")
  | table :: rest =>
    if table.2 = tableName then (true, table.1) else scanTables tableName rest

/-- The virtual method `semanticChecking`. -/
def semanticChecking (catalog : MyDB_Catalog) (tablesToProcess : TableList) :
    ExprTree → Checked
  | BoolLiteral myVal => ⟨true, BoolLiteral myVal, ""⟩
  | DoubleLiteral myVal => ⟨true, DoubleLiteral myVal, ""⟩
  | IntLiteral myVal => ⟨true, IntLiteral myVal, ""⟩
  | StringLiteral myVal => ⟨true, StringLiteral myVal, ""⟩
  | Identifier tableName attName attType =>
    let scan := scanTables tableName tablesToProcess
    if scan.1 = false then
      ⟨false, Identifier tableName attName attType,
        "Table " ++ tableName ++ " is not in the from clause.\n"⟩
    else
      match catalog.getString (scan.2 ++ "." ++ attName ++ ".type") with
      | none =>
        ⟨false, Identifier tableName attName attType,
          "Attribute " ++ attName ++ " does not exist in table " ++ tableName ++ ".\n"⟩
      | some attributeType =>
        if attributeType = "int" ∨ attributeType = "double" then
          ⟨true, Identifier tableName attName "NUMERIC", ""⟩
        else if attributeType = "string" then
          ⟨true, Identifier tableName attName "STRING", ""⟩
        else if attributeType = "bool" then
          ⟨true, Identifier tableName attName "BOOL", ""⟩
        else
          ⟨true, Identifier tableName attName attType, ""⟩
  | MinusOp lhs rhs =>
    let l := semanticChecking catalog tablesToProcess lhs
    if l.result = false then ⟨false, MinusOp l.self rhs, l.cout⟩
    else
      let r := semanticChecking catalog tablesToProcess rhs
      if r.result = false then ⟨false, MinusOp l.self r.self, l.cout ++ r.cout⟩
      else if getType l.self ≠ "NUMERIC" ∨ getType r.self ≠ "NUMERIC" then
        ⟨false, MinusOp l.self r.self,
          l.cout ++ r.cout ++ ("rhs type is " ++ getType r.self ++ "\n"
            ++ "Operands of - operator must be numeric.\n")⟩
      else if getType l.self ≠ getType r.self then
        ⟨false, MinusOp l.self r.self,
          l.cout ++ r.cout ++ ("Operands of - operator must have the same type. lhs's type: "
            ++ getType l.self ++ " rhs's type: " ++ getType r.self ++ "\n")⟩
      else ⟨true, MinusOp l.self r.self, l.cout ++ r.cout⟩
  | PlusOp lhs rhs attType =>
    let l := semanticChecking catalog tablesToProcess lhs
    if l.result = false then ⟨false, PlusOp l.self rhs attType, l.cout⟩
    else
      let r := semanticChecking catalog tablesToProcess rhs
      if r.result = false then ⟨false, PlusOp l.self r.self attType, l.cout ++ r.cout⟩
      else if getType l.self ≠ getType r.self then
        ⟨false, PlusOp l.self r.self attType,
          l.cout ++ r.cout ++ ("Operands of + operator must have the same type. lhs's type: "
            ++ getType l.self ++ " rhs's type: " ++ getType r.self ++ "\n")⟩
      else if getType l.self = "STRING" then
        ⟨true, PlusOp l.self r.self "STRING", l.cout ++ r.cout⟩
      else if getType l.self = "NUMERIC" then
        ⟨true, PlusOp l.self r.self "NUMERIC", l.cout ++ r.cout⟩
      else
        ⟨false, PlusOp l.self r.self attType,
          l.cout ++ r.cout ++ "Operands of + operator must be numeric or string.\n"⟩
  | TimesOp lhs rhs =>
    let l := semanticChecking catalog tablesToProcess lhs
    if l.result = false then ⟨false, TimesOp l.self rhs, l.cout⟩
    else
      let r := semanticChecking catalog tablesToProcess rhs
      if r.result = false then ⟨false, TimesOp l.self r.self, l.cout ++ r.cout⟩
      else if getType l.self ≠ "NUMERIC" ∨ getType r.self ≠ "NUMERIC" then
        ⟨false, TimesOp l.self r.self,
          l.cout ++ r.cout ++ ("Operands of * operator must be numeric. lhs's type: "
            ++ getType l.self ++ " rhs's type: " ++ getType r.self ++ "\n")⟩
      else if getType l.self ≠ getType r.self then
        ⟨false, TimesOp l.self r.self,
          l.cout ++ r.cout ++ ("Operands of * operator must have the same type. lhs's type: "
            ++ getType l.self ++ " rhs's type: " ++ getType r.self ++ "\n")⟩
      else ⟨true, TimesOp l.self r.self, l.cout ++ r.cout⟩
  | DivideOp lhs rhs =>
    let l := semanticChecking catalog tablesToProcess lhs
    if l.result = false then ⟨false, DivideOp l.self rhs, l.cout⟩
    else
      let r := semanticChecking catalog tablesToProcess rhs
      if r.result = false then ⟨false, DivideOp l.self r.self, l.cout ++ r.cout⟩
      else if toString r.self = "0" then
        ⟨false, DivideOp l.self r.self, l.cout ++ r.cout ++ "Division by zero.\n"⟩
      else if getType l.self ≠ "NUMERIC" ∨ getType r.self ≠ "NUMERIC" then
        ⟨false, DivideOp l.self r.self,
          l.cout ++ r.cout ++ ("Operands of / operator must be numeric. lhs's type: "
            ++ getType l.self ++ " rhs's type: " ++ getType r.self ++ "\n")⟩
      else if getType l.self ≠ getType r.self then
        ⟨false, DivideOp l.self r.self,
          l.cout ++ r.cout ++ ("Operands of / operator must have the same type. lhs's type: "
            ++ getType l.self ++ " rhs's type: " ++ getType r.self ++ "\n")⟩
      else ⟨true, DivideOp l.self r.self, l.cout ++ r.cout⟩
  | GtOp lhs rhs =>
    let l := semanticChecking catalog tablesToProcess lhs
    if l.result = false then ⟨false, GtOp l.self rhs, l.cout⟩
    else
      let r := semanticChecking catalog tablesToProcess rhs
      if r.result = false then ⟨false, GtOp l.self r.self, l.cout ++ r.cout⟩
      else if getType l.self ≠ getType r.self then
        ⟨false, GtOp l.self r.self,
          l.cout ++ r.cout ++ ("Operands of > operator must have the same type. lhs's type: "
            ++ getType l.self ++ " rhs's type: " ++ getType r.self ++ "\n")⟩
      else ⟨true, GtOp l.self r.self, l.cout ++ r.cout⟩
  | LtOp lhs rhs =>
    let l := semanticChecking catalog tablesToProcess lhs
    if l.result = false then ⟨false, LtOp l.self rhs, l.cout⟩
    else
      let r := semanticChecking catalog tablesToProcess rhs
      if r.result = false then ⟨false, LtOp l.self r.self, l.cout ++ r.cout⟩
      else if getType l.self ≠ getType r.self then
        ⟨false, LtOp l.self r.self,
          l.cout ++ r.cout ++ ("Operands of < operator must have the same type. lhs's type: "
            ++ getType l.self ++ " rhs's type: " ++ getType r.self ++ "\n")⟩
      else ⟨true, LtOp l.self r.self, l.cout ++ r.cout⟩
  | NeqOp lhs rhs =>
    let l := semanticChecking catalog tablesToProcess lhs
    if l.result = false then ⟨false, NeqOp l.self rhs, l.cout⟩
    else
      let r := semanticChecking catalog tablesToProcess rhs
      if r.result = false then ⟨false, NeqOp l.self r.self, l.cout ++ r.cout⟩
      else if getType l.self ≠ getType r.self then
        ⟨false, NeqOp l.self r.self,
          l.cout ++ r.cout ++ ("Operands of != operator must have the same type. lhs's type: "
            ++ getType l.self ++ " rhs's type: " ++ getType r.self ++ "\n")⟩
      else ⟨true, NeqOp l.self r.self, l.cout ++ r.cout⟩
  | OrOp lhs rhs =>
    let l := semanticChecking catalog tablesToProcess lhs
    if l.result = false then ⟨false, OrOp l.self rhs, l.cout⟩
    else
      let r := semanticChecking catalog tablesToProcess rhs
      if r.result = false then ⟨false, OrOp l.self r.self, l.cout ++ r.cout⟩
      else if getType l.self ≠ "BOOL" ∨ getType r.self ≠ "BOOL" then
        ⟨false, OrOp l.self r.self,
          l.cout ++ r.cout ++ ("Operands of || operator must be boolean. lhs's type: "
            ++ getType l.self ++ " rhs's type: " ++ getType r.self ++ "\n")⟩
      else if getType l.self ≠ getType r.self then
        ⟨false, OrOp l.self r.self,
          l.cout ++ r.cout ++ ("Operands of || operator must have the same type. lhs's type: "
            ++ getType l.self ++ " rhs's type: " ++ getType r.self ++ "\n")⟩
      else ⟨true, OrOp l.self r.self, l.cout ++ r.cout⟩
  | EqOp lhs rhs =>
    let l := semanticChecking catalog tablesToProcess lhs
    if l.result = false then ⟨false, EqOp l.self rhs, l.cout⟩
    else
      let r := semanticChecking catalog tablesToProcess rhs
      if r.result = false then ⟨false, EqOp l.self r.self, l.cout ++ r.cout⟩
      else if getType l.self ≠ getType r.self then
        ⟨false, EqOp l.self r.self,
          l.cout ++ r.cout ++ ("Operands of == operator must have the same type. lhs's type: "
            ++ getType l.self ++ " rhs's type: " ++ getType r.self ++ "\n")⟩
      else ⟨true, EqOp l.self r.self, l.cout ++ r.cout⟩
  | NotOp child =>
    let c := semanticChecking catalog tablesToProcess child
    if c.result = false then ⟨false, NotOp c.self, c.cout⟩
    else if getType c.self ≠ "BOOL" then
      ⟨false, NotOp c.self,
        c.cout ++ ("Operand of ! operator must be boolean. Operand's type: "
          ++ getType c.self ++ "\n")⟩
    else ⟨true, NotOp c.self, c.cout⟩
  | SumOp child =>
    let c := semanticChecking catalog tablesToProcess child
    if c.result = false then ⟨false, SumOp c.self, c.cout⟩
    else if getType c.self ≠ "NUMERIC" then
      ⟨false, SumOp c.self,
        c.cout ++ ("Operand of sum operator must be numeric. Operand's type: "
          ++ getType c.self ++ "\n")⟩
    else ⟨true, SumOp c.self, c.cout⟩
  | AvgOp child =>
    let c := semanticChecking catalog tablesToProcess child
    if c.result = false then ⟨false, AvgOp c.self, c.cout⟩
    else if getType c.self ≠ "NUMERIC" then
      ⟨false, AvgOp c.self,
        c.cout ++ ("Operand of avg operator must be numeric. Operand's type: "
          ++ getType c.self ++ "\n")⟩
    else ⟨true, AvgOp c.self, c.cout⟩

/-! ### Observations used to state the properties -/

/-- The four literal classes. -/
def isLiteral : ExprTree → Bool
  | BoolLiteral _ => true
  | DoubleLiteral _ => true
  | IntLiteral _ => true
  | StringLiteral _ => true
  | _ => false

/-- The node after a sequence of `semanticChecking` calls, one per entry of `runs`. -/
def afterChecks (runs : List (MyDB_Catalog × TableList)) (e : ExprTree) : ExprTree :=
  runs.foldl (fun node run => (semanticChecking run.1 run.2 node).self) e

/-- The booleans returned by a sequence of `semanticChecking` calls on one node. -/
def checkResults : List (MyDB_Catalog × TableList) → ExprTree → List Bool
  | [], _ => []
  | run :: runs, e =>
    (semanticChecking run.1 run.2 e).result ::
      checkResults runs (semanticChecking run.1 run.2 e).self

/-- Every operand of every `MinusOp`, `TimesOp`, `DivideOp`, `SumOp` and `AvgOp` node
of the tree reports `"NUMERIC"`. -/
def numericOperands : ExprTree → Bool
  | BoolLiteral _ => true
  | DoubleLiteral _ => true
  | IntLiteral _ => true
  | StringLiteral _ => true
  | Identifier _ _ _ => true
  | MinusOp lhs rhs =>
    decide (getType lhs = "NUMERIC") && decide (getType rhs = "NUMERIC")
      && numericOperands lhs && numericOperands rhs
  | PlusOp lhs rhs _ => numericOperands lhs && numericOperands rhs
  | TimesOp lhs rhs =>
    decide (getType lhs = "NUMERIC") && decide (getType rhs = "NUMERIC")
      && numericOperands lhs && numericOperands rhs
  | DivideOp lhs rhs =>
    decide (getType lhs = "NUMERIC") && decide (getType rhs = "NUMERIC")
      && numericOperands lhs && numericOperands rhs
  | GtOp lhs rhs => numericOperands lhs && numericOperands rhs
  | LtOp lhs rhs => numericOperands lhs && numericOperands rhs
  | NeqOp lhs rhs => numericOperands lhs && numericOperands rhs
  | OrOp lhs rhs => numericOperands lhs && numericOperands rhs
  | EqOp lhs rhs => numericOperands lhs && numericOperands rhs
  | NotOp child => numericOperands child
  | SumOp child => decide (getType child = "NUMERIC") && numericOperands child
  | AvgOp child => decide (getType child = "NUMERIC") && numericOperands child

/-- The `Identifier` class. -/
def isIdentifier : ExprTree → Bool
  | Identifier _ _ _ => true
  | _ => false

/-- The tree as its constructors leave it: every `Identifier` holds the placeholder
`"IDENTIFIER"` and every `PlusOp` the empty string.  Two trees have the same shape,
literal values and identifier names exactly when they agree after `asConstructed`. -/
def asConstructed : ExprTree → ExprTree
  | BoolLiteral myVal => BoolLiteral myVal
  | DoubleLiteral myVal => DoubleLiteral myVal
  | IntLiteral myVal => IntLiteral myVal
  | StringLiteral myVal => StringLiteral myVal
  | Identifier tableName attName _ => Identifier tableName attName "IDENTIFIER"
  | MinusOp lhs rhs => MinusOp (asConstructed lhs) (asConstructed rhs)
  | PlusOp lhs rhs _ => PlusOp (asConstructed lhs) (asConstructed rhs) ""
  | TimesOp lhs rhs => TimesOp (asConstructed lhs) (asConstructed rhs)
  | DivideOp lhs rhs => DivideOp (asConstructed lhs) (asConstructed rhs)
  | GtOp lhs rhs => GtOp (asConstructed lhs) (asConstructed rhs)
  | LtOp lhs rhs => LtOp (asConstructed lhs) (asConstructed rhs)
  | NeqOp lhs rhs => NeqOp (asConstructed lhs) (asConstructed rhs)
  | OrOp lhs rhs => OrOp (asConstructed lhs) (asConstructed rhs)
  | EqOp lhs rhs => EqOp (asConstructed lhs) (asConstructed rhs)
  | NotOp child => NotOp (asConstructed child)
  | SumOp child => SumOp (asConstructed child)
  | AvgOp child => AvgOp (asConstructed child)

/-- The `attType` members stored in the tree (of its `Identifier` and `PlusOp` nodes),
a node before its operands, operands left to right. -/
def storedTypes : ExprTree → List String
  | BoolLiteral _ => []
  | DoubleLiteral _ => []
  | IntLiteral _ => []
  | StringLiteral _ => []
  | Identifier _ _ attType => [attType]
  | MinusOp lhs rhs => storedTypes lhs ++ storedTypes rhs
  | PlusOp lhs rhs attType => attType :: (storedTypes lhs ++ storedTypes rhs)
  | TimesOp lhs rhs => storedTypes lhs ++ storedTypes rhs
  | DivideOp lhs rhs => storedTypes lhs ++ storedTypes rhs
  | GtOp lhs rhs => storedTypes lhs ++ storedTypes rhs
  | LtOp lhs rhs => storedTypes lhs ++ storedTypes rhs
  | NeqOp lhs rhs => storedTypes lhs ++ storedTypes rhs
  | OrOp lhs rhs => storedTypes lhs ++ storedTypes rhs
  | EqOp lhs rhs => storedTypes lhs ++ storedTypes rhs
  | NotOp child => storedTypes child
  | SumOp child => storedTypes child
  | AvgOp child => storedTypes child

/-- The number of nodes with two operands in the tree. -/
def binaryNodes : ExprTree → Nat
  | BoolLiteral _ => 0
  | DoubleLiteral _ => 0
  | IntLiteral _ => 0
  | StringLiteral _ => 0
  | Identifier _ _ _ => 0
  | MinusOp lhs rhs => binaryNodes lhs + binaryNodes rhs + 1
  | PlusOp lhs rhs _ => binaryNodes lhs + binaryNodes rhs + 1
  | TimesOp lhs rhs => binaryNodes lhs + binaryNodes rhs + 1
  | DivideOp lhs rhs => binaryNodes lhs + binaryNodes rhs + 1
  | GtOp lhs rhs => binaryNodes lhs + binaryNodes rhs + 1
  | LtOp lhs rhs => binaryNodes lhs + binaryNodes rhs + 1
  | NeqOp lhs rhs => binaryNodes lhs + binaryNodes rhs + 1
  | OrOp lhs rhs => binaryNodes lhs + binaryNodes rhs + 1
  | EqOp lhs rhs => binaryNodes lhs + binaryNodes rhs + 1
  | NotOp child => binaryNodes child
  | SumOp child => binaryNodes child
  | AvgOp child => binaryNodes child

end ExprTree

/-! ## Observations on rendered text -/

/-- No character of the text is a whitespace character (space, tab, CR, newline). -/
def whitespaceFree (s : String) : Bool :=
  s.data.all (fun c => !c.isWhitespace)

/-- The only whitespace characters of the text are space characters. -/
def blanksOnly (s : String) : Bool :=
  s.data.all (fun c => !c.isWhitespace || c == ' ')

/-- The number of space characters in the text. -/
def spaces (s : String) : Nat :=
  s.data.count ' '

/-- The string literal payloads and the identifier names of the tree are free of
whitespace. -/
def cleanPayloads : ExprTree → Bool
  | ExprTree.BoolLiteral _ => true
  | ExprTree.DoubleLiteral _ => true
  | ExprTree.IntLiteral _ => true
  | ExprTree.StringLiteral myVal => whitespaceFree myVal
  | ExprTree.Identifier tableName attName _ =>
    whitespaceFree tableName && whitespaceFree attName
  | ExprTree.MinusOp lhs rhs => cleanPayloads lhs && cleanPayloads rhs
  | ExprTree.PlusOp lhs rhs _ => cleanPayloads lhs && cleanPayloads rhs
  | ExprTree.TimesOp lhs rhs => cleanPayloads lhs && cleanPayloads rhs
  | ExprTree.DivideOp lhs rhs => cleanPayloads lhs && cleanPayloads rhs
  | ExprTree.GtOp lhs rhs => cleanPayloads lhs && cleanPayloads rhs
  | ExprTree.LtOp lhs rhs => cleanPayloads lhs && cleanPayloads rhs
  | ExprTree.NeqOp lhs rhs => cleanPayloads lhs && cleanPayloads rhs
  | ExprTree.OrOp lhs rhs => cleanPayloads lhs && cleanPayloads rhs
  | ExprTree.EqOp lhs rhs => cleanPayloads lhs && cleanPayloads rhs
  | ExprTree.NotOp child => cleanPayloads child
  | ExprTree.SumOp child => cleanPayloads child
  | ExprTree.AvgOp child => cleanPayloads child

/-- Every physical type string the catalog holds is one of those that
`Identifier::semanticChecking` maps to a logical type. -/
def mappedTypes (catalog : MyDB_Catalog) : Prop :=
  ∀ key v, catalog.getString key = some v →
    v = "int" ∨ v = "double" ∨ v = "string" ∨ v = "bool"

/-- Some position inside both texts holds different characters. -/
def differsWithin (p q : String) : Bool :=
  (List.zipWith (fun c d => c != d) p.data q.data).any id

/-- The fixed beginnings of the texts that a call of `semanticChecking` can leave on
`cout`: each is the string literal that opens one of the `cout <<` statements (those
of the branches that are never taken are left out). -/
def diagnosticHeads : List String :=
  ["Table ", "Attribute ", "rhs type is ",
   "Operands of + operator must have the same type. lhs's type: ",
   "Operands of + operator must be numeric or string.\n",
   "Operands of * operator must be numeric. lhs's type: ",
   "Operands of / operator must be numeric. lhs's type: ",
   "Operands of > operator must have the same type. lhs's type: ",
   "Operands of < operator must have the same type. lhs's type: ",
   "Operands of != operator must have the same type. lhs's type: ",
   "Operands of || operator must be boolean. lhs's type: ",
   "Operands of == operator must have the same type. lhs's type: ",
   "Operand of ! operator must be boolean. Operand's type: ",
   "Operand of sum operator must be numeric. Operand's type: ",
   "Operand of avg operator must be numeric. Operand's type: "]

/-! ## Sample inputs -/

/-- A catalog with the single entry `employees.salary.type = "int"`. -/
def employeesCatalog : MyDB_Catalog :=
  ⟨fun key => if key = "employees.salary.type" then some "int" else none⟩

/-- A catalog with two tables that both have a `salary` attribute, of different types. -/
def twoTablesCatalog : MyDB_Catalog :=
  ⟨fun key =>
    if key = "employees.salary.type" then some "int"
    else if key = "managers.salary.type" then some "string"
    else none⟩

/-- A catalog whose only attribute has a physical type outside int/double/string/bool. -/
def dateCatalog : MyDB_Catalog :=
  ⟨fun key => if key = "events.day.type" then some "date" else none⟩

/-- A catalog without any entry. -/
def emptyCatalog : MyDB_Catalog :=
  ⟨fun _ => none⟩

/-- A catalog with the single entry `events.day.type = "int"`. -/
def eventsCatalog : MyDB_Catalog :=
  ⟨fun key => if key = "events.day.type" then some "int" else none⟩

open ExprTree

/-! ## Auxiliary facts -/

/-- The scan finds nothing exactly when no entry carries the alias. -/
theorem scanTables_false_iff (t : String) (L : TableList) :
    (scanTables t L).1 = false ↔ ∀ e ∈ L, e.2 ≠ t := by
  induction L with
  | nil => simp [scanTables]
  | cons x xs ih =>
    by_cases h : x.2 = t
    · simp [scanTables, h]
    · simp [scanTables, h, ih]

/-- The scan stops at the first entry that carries the alias. -/
theorem scanTables_first (t p : String) (pre post : TableList)
    (hpre : ∀ e ∈ pre, e.2 ≠ t) :
    scanTables t (pre ++ (p, t) :: post) = (true, p) := by
  induction pre with
  | nil => simp [scanTables]
  | cons x xs ih =>
    have hx : x.2 ≠ t := hpre x (List.mem_cons_self _ _)
    have hxs : ∀ e ∈ xs, e.2 ≠ t := fun e he => hpre e (List.mem_cons_of_mem _ he)
    simp [scanTables, hx, ih hxs]

/-- A successful scan splits the list at the entry it stopped at. -/
theorem scanTables_true_split (t : String) (L : TableList)
    (h : (scanTables t L).1 = true) :
    ∃ pre post, L = pre ++ ((scanTables t L).2, t) :: post ∧ ∀ e ∈ pre, e.2 ≠ t := by
  induction L with
  | nil => simp [scanTables] at h
  | cons x xs ih =>
    by_cases hx : x.2 = t
    · refine ⟨[], xs, ?_, by simp⟩
      simp [scanTables, hx]
      exact Prod.ext rfl hx
    · simp only [scanTables, hx, if_false] at h ⊢
      obtain ⟨pre, post, h1, h2⟩ := ih h
      refine ⟨x :: pre, post, ?_, ?_⟩
      · rw [List.cons_append, ← h1]
      · intro e he
        rcases List.mem_cons.mp he with rfl | he
        · exact hx
        · exact h2 e he

/-- Two splits of one list at the first entry with alias `t` name the same table. -/
theorem first_entry_unique (t p : String) (L pre post : TableList)
    (hL : L = pre ++ (p, t) :: post) (hpre : ∀ e ∈ pre, e.2 ≠ t) :
    p = (scanTables t L).2 := by
  rw [hL, scanTables_first t p pre post hpre]

/-- The identifier check when no entry of the table list carries the alias. -/
theorem identifier_not_found (catalog : MyDB_Catalog) (L : TableList) (t a ty : String)
    (h : ∀ e ∈ L, e.2 ≠ t) :
    semanticChecking catalog L (Identifier t a ty) =
      ⟨false, Identifier t a ty, "Table " ++ t ++ " is not in the from clause.\n"⟩ := by
  have := (scanTables_false_iff t L).mpr h
  simp [semanticChecking, this]

/-- The identifier check when the table is found and the catalog has no such key. -/
theorem identifier_no_attribute (catalog : MyDB_Catalog) (L : TableList) (t a ty p : String)
    (h : scanTables t L = (true, p))
    (hv : catalog.getString (p ++ "." ++ a ++ ".type") = none) :
    semanticChecking catalog L (Identifier t a ty) =
      ⟨false, Identifier t a ty,
        "Attribute " ++ a ++ " does not exist in table " ++ t ++ ".\n"⟩ := by
  simp only [semanticChecking, h, hv]
  simp

/-- The identifier check when table and attribute are found: the type mapping. -/
theorem identifier_found (catalog : MyDB_Catalog) (L : TableList) (t a ty p v : String)
    (h : scanTables t L = (true, p))
    (hv : catalog.getString (p ++ "." ++ a ++ ".type") = some v) :
    semanticChecking catalog L (Identifier t a ty) =
        if v = "int" ∨ v = "double" then ⟨true, Identifier t a "NUMERIC", ""⟩
        else if v = "string" then ⟨true, Identifier t a "STRING", ""⟩
        else if v = "bool" then ⟨true, Identifier t a "BOOL", ""⟩
        else ⟨true, Identifier t a ty, ""⟩ := by
  simp only [semanticChecking, h, hv]
  simp

/-- Whatever the physical type, a found attribute makes the check return true. -/
theorem identifier_found_result (t a ty v : String) :
    (if v = "int" ∨ v = "double" then (⟨true, Identifier t a "NUMERIC", ""⟩ : Checked)
      else if v = "string" then ⟨true, Identifier t a "STRING", ""⟩
      else if v = "bool" then ⟨true, Identifier t a "BOOL", ""⟩
      else ⟨true, Identifier t a ty, ""⟩).result = true := by
  split_ifs <;> rfl

/-- A successful check writes nothing to `cout`. -/
theorem cout_empty_of_success (catalog : MyDB_Catalog) (L : TableList) (e : ExprTree) :
    (semanticChecking catalog L e).result = true →
      (semanticChecking catalog L e).cout = "" := by
  induction e with
  | Identifier t a ty =>
    simp only [semanticChecking]
    split
    · simp
    · split
      · simp
      · split_ifs <;> simp
  | _ =>
    simp only [semanticChecking]
    first
      | (simp; done)
      | (split_ifs <;> simp_all)

/-- A successful check leaves a tree all of whose arithmetic operands are numeric. -/
theorem numericOperands_of_success (catalog : MyDB_Catalog) (L : TableList) (e : ExprTree) :
    (semanticChecking catalog L e).result = true →
      numericOperands (semanticChecking catalog L e).self = true := by
  induction e with
  | Identifier t a ty =>
    simp only [semanticChecking]
    split
    · simp
    · split
      · simp
      · split_ifs <;> simp [numericOperands]
  | _ =>
    simp only [semanticChecking]
    first
      | (simp [numericOperands]; done)
      | (split_ifs <;> simp_all [numericOperands])

/-- A character inside the first operand of `++` is a character of the result. -/
theorem data_getElem_append (a b : String) (n : Nat) (h : n < a.data.length) :
    (a ++ b).data[n]? = a.data[n]? := by
  rw [String.data_append, List.getElem?_append_left h]

/-- The rendering of an integer literal starts with `i`, so it is not the text `0`. -/
theorem toString_IntLiteral_ne_zero (n : Int) : ExprTree.toString (IntLiteral n) ≠ "0" := by
  intro h
  have h0 := congrArg (fun s : String => s.data[0]?) h
  simp only [ExprTree.toString, String.append_assoc] at h0
  rw [data_getElem_append _ _ 0 (by decide)] at h0
  exact absurd h0 (by decide)

/-- Checking a literal any number of times returns true each time and changes nothing. -/
theorem afterChecks_literal (runs : List (MyDB_Catalog × TableList)) (e : ExprTree)
    (h : isLiteral e = true) :
    afterChecks runs e = e ∧ checkResults runs e = List.replicate runs.length true := by
  induction runs with
  | nil => exact ⟨rfl, rfl⟩
  | cons run runs ih =>
    cases e <;> simp [isLiteral] at h <;>
    · simp only [afterChecks, List.foldl, semanticChecking, checkResults, List.length_cons,
        List.replicate_succ]
      exact ⟨ih.1, by rw [ih.2]⟩

/-- The typing rule shared by the four comparison operators. -/
theorem comparison_rule (catalog : MyDB_Catalog) (L : TableList)
    (op : ExprTree → ExprTree → ExprTree) (hop : op ∈ [GtOp, LtOp, EqOp, NeqOp])
    (l r : ExprTree) :
    ((semanticChecking catalog L (op l r)).result = true ↔
      ((semanticChecking catalog L l).result = true ∧
       (semanticChecking catalog L r).result = true ∧
       getType (semanticChecking catalog L l).self =
         getType (semanticChecking catalog L r).self)) ∧
    ((semanticChecking catalog L (op l r)).result = true →
      (semanticChecking catalog L (op l r)).self =
        op (semanticChecking catalog L l).self (semanticChecking catalog L r).self) ∧
    getType (op l r) = "BOOL" ∧
    getType (semanticChecking catalog L (op l r)).self = "BOOL" := by
  simp only [List.mem_cons, List.mem_singleton, List.not_mem_nil, or_false] at hop
  rcases hop with rfl | rfl | rfl | rfl <;>
  · simp only [semanticChecking]
    split_ifs <;> simp_all [getType]

/-! ## Identifier resolution -/

/-- C1: `Identifier::semanticChecking` returns false exactly when (i) no entry of the
table list has the node's alias (the "not in the from clause" diagnostic), or (ii) the
first entry with that alias names table `p` and the catalog has no value under
`p.a.type` (the "does not exist" diagnostic).  In every other case, that is as soon as
the catalog has some value `v` under that key, it returns true, whatever `v` is. -/
theorem identifier_check_fails_iff (catalog : MyDB_Catalog) (L : TableList)
    (t a ty : String) :
    ((semanticChecking catalog L (Identifier t a ty)).result = false ↔
      ((∀ e ∈ L, e.2 ≠ t) ∨
        ∃ pre p post, L = pre ++ (p, t) :: post ∧ (∀ e ∈ pre, e.2 ≠ t) ∧
          catalog.getString (p ++ "." ++ a ++ ".type") = none)) ∧
    ((semanticChecking catalog L (Identifier t a ty)).result = true ↔
      ∃ pre p post v, L = pre ++ (p, t) :: post ∧ (∀ e ∈ pre, e.2 ≠ t) ∧
          catalog.getString (p ++ "." ++ a ++ ".type") = some v) ∧
    ((∀ e ∈ L, e.2 ≠ t) →
      (semanticChecking catalog L (Identifier t a ty)).cout =
        "Table " ++ t ++ " is not in the from clause.\n") ∧
    ((∃ pre p post, L = pre ++ (p, t) :: post ∧ (∀ e ∈ pre, e.2 ≠ t) ∧
          catalog.getString (p ++ "." ++ a ++ ".type") = none) →
      (semanticChecking catalog L (Identifier t a ty)).cout =
        "Attribute " ++ a ++ " does not exist in table " ++ t ++ ".\n") := by
  have hcout2 : (∃ pre p post, L = pre ++ (p, t) :: post ∧ (∀ e ∈ pre, e.2 ≠ t) ∧
          catalog.getString (p ++ "." ++ a ++ ".type") = none) →
      (semanticChecking catalog L (Identifier t a ty)).cout =
        "Attribute " ++ a ++ " does not exist in table " ++ t ++ ".\n" := by
    rintro ⟨pre, p, post, hL, hpre, hv⟩
    have hsc : scanTables t L = (true, p) := by rw [hL]; exact scanTables_first t p pre post hpre
    rw [identifier_no_attribute catalog L t a ty p hsc hv]
  have hcout1 : (∀ e ∈ L, e.2 ≠ t) →
      (semanticChecking catalog L (Identifier t a ty)).cout =
        "Table " ++ t ++ " is not in the from clause.\n" := by
    intro hno
    rw [identifier_not_found catalog L t a ty hno]
  refine ⟨?_, ?_, hcout1, hcout2⟩
  · by_cases hs : (scanTables t L).1 = false
    · have hno := (scanTables_false_iff t L).mp hs
      rw [identifier_not_found catalog L t a ty hno]
      exact ⟨fun _ => Or.inl hno, fun _ => rfl⟩
    · have hs1 : (scanTables t L).1 = true := by simpa using hs
      obtain ⟨pre, post, hL, hpre⟩ := scanTables_true_split t L hs1
      have hsc : scanTables t L = (true, (scanTables t L).2) := Prod.ext hs1 rfl
      have hyes : ¬ ∀ e ∈ L, e.2 ≠ t := fun hno => hs ((scanTables_false_iff t L).mpr hno)
      cases hv : catalog.getString ((scanTables t L).2 ++ "." ++ a ++ ".type") with
      | none =>
        rw [identifier_no_attribute catalog L t a ty _ hsc hv]
        exact ⟨fun _ => Or.inr ⟨pre, _, post, hL, hpre, hv⟩, fun _ => rfl⟩
      | some v =>
        rw [identifier_found catalog L t a ty _ v hsc hv]
        simp only [identifier_found_result, Bool.true_eq_false, false_iff]
        rintro (hno | ⟨pre2, p2, post2, h2, hp2, hv2⟩)
        · exact hyes hno
        · rw [first_entry_unique t p2 L pre2 post2 h2 hp2, hv] at hv2
          exact Option.noConfusion hv2
  · by_cases hs : (scanTables t L).1 = false
    · have hno := (scanTables_false_iff t L).mp hs
      rw [identifier_not_found catalog L t a ty hno]
      simp only [Bool.false_eq_true, false_iff]
      rintro ⟨pre, p, post, v, hL, -, -⟩
      exact hno (p, t) (by simp [hL]) rfl
    · have hs1 : (scanTables t L).1 = true := by simpa using hs
      obtain ⟨pre, post, hL, hpre⟩ := scanTables_true_split t L hs1
      have hsc : scanTables t L = (true, (scanTables t L).2) := Prod.ext hs1 rfl
      cases hv : catalog.getString ((scanTables t L).2 ++ "." ++ a ++ ".type") with
      | none =>
        rw [identifier_no_attribute catalog L t a ty _ hsc hv]
        simp only [Bool.false_eq_true, false_iff]
        rintro ⟨pre2, p2, post2, v, h2, hp2, hv2⟩
        rw [first_entry_unique t p2 L pre2 post2 h2 hp2, hv] at hv2
        exact Option.noConfusion hv2
      | some v =>
        rw [identifier_found catalog L t a ty _ v hsc hv]
        simp only [identifier_found_result, true_iff]
        exact ⟨pre, _, post, v, hL, hpre, hv⟩

/-- C2: when the first entry of the table list with alias `t` is `(p, t)` and the
catalog holds `v` under `p.a.type`, the check succeeds and the stored type is read off
that entry: `"NUMERIC"` for `"int"` and `"double"`, `"STRING"` for `"string"`, `"BOOL"`
for `"bool"`.  The entries behind the first match (which may carry the same alias) do
not influence the outcome. -/
theorem identifier_resolves_from_first_entry (catalog : MyDB_Catalog)
    (pre post : TableList) (p t a ty v : String)
    (hpre : ∀ e ∈ pre, e.2 ≠ t)
    (hv : catalog.getString (p ++ "." ++ a ++ ".type") = some v) :
    (semanticChecking catalog (pre ++ (p, t) :: post) (Identifier t a ty)).result = true ∧
    ((v = "int" ∨ v = "double") →
      getType (semanticChecking catalog (pre ++ (p, t) :: post) (Identifier t a ty)).self
        = "NUMERIC") ∧
    (v = "string" →
      getType (semanticChecking catalog (pre ++ (p, t) :: post) (Identifier t a ty)).self
        = "STRING") ∧
    (v = "bool" →
      getType (semanticChecking catalog (pre ++ (p, t) :: post) (Identifier t a ty)).self
        = "BOOL") ∧
    (∀ post2 : TableList,
      semanticChecking catalog (pre ++ (p, t) :: post2) (Identifier t a ty) =
        semanticChecking catalog (pre ++ (p, t) :: post) (Identifier t a ty)) := by
  have hk : ∀ q : TableList,
      semanticChecking catalog (pre ++ (p, t) :: q) (Identifier t a ty) =
        if v = "int" ∨ v = "double" then ⟨true, Identifier t a "NUMERIC", ""⟩
        else if v = "string" then ⟨true, Identifier t a "STRING", ""⟩
        else if v = "bool" then ⟨true, Identifier t a "BOOL", ""⟩
        else ⟨true, Identifier t a ty, ""⟩ :=
    fun q => identifier_found catalog _ t a ty p v (scanTables_first t p pre q hpre) hv
  refine ⟨?_, ?_, ?_, ?_, ?_⟩
  · rw [hk]; exact identifier_found_result t a ty v
  · intro h; rw [hk, if_pos h]; rfl
  · rintro rfl; rw [hk]; simp [getType]
  · rintro rfl; rw [hk]; simp [getType]
  · intro q; rw [hk, hk]

/-- The scenario of the specification (a single table), and a table list in which a
second table carries the same alias but another type for the attribute. -/
theorem identifier_resolves_from_first_entry_witness :
    ((semanticChecking employeesCatalog ([] ++ ("employees", "employees") :: [])
        (Identifier "employees" "salary" "IDENTIFIER")).result = true ∧
     getType (semanticChecking employeesCatalog ([] ++ ("employees", "employees") :: [])
        (Identifier "employees" "salary" "IDENTIFIER")).self = "NUMERIC") ∧
    ((semanticChecking twoTablesCatalog
        ([("managers", "m")] ++ ("employees", "e") :: [("managers", "e")])
        (Identifier "e" "salary" "IDENTIFIER")).result = true ∧
     getType (semanticChecking twoTablesCatalog
        ([("managers", "m")] ++ ("employees", "e") :: [("managers", "e")])
        (Identifier "e" "salary" "IDENTIFIER")).self = "NUMERIC") :=
  have h1 := identifier_resolves_from_first_entry employeesCatalog [] []
    "employees" "employees" "salary" "IDENTIFIER" "int" (by simp) (by decide)
  have h2 := identifier_resolves_from_first_entry twoTablesCatalog [("managers", "m")]
    [("managers", "e")] "employees" "e" "salary" "IDENTIFIER" "int" (by decide) (by decide)
  ⟨⟨h1.1, h1.2.1 (Or.inl rfl)⟩, ⟨h2.1, h2.2.1 (Or.inl rfl)⟩⟩

/-- C3, as stated, fails: a never-checked identifier whose attribute has the physical
type `"date"` checks successfully and still reports the placeholder `"IDENTIFIER"`. -/
theorem identifier_success_type_counterexample :
    (semanticChecking dateCatalog [("events", "ev")] (newIdentifier "ev" "day")).result
      = true ∧
    getType (semanticChecking dateCatalog [("events", "ev")]
      (newIdentifier "ev" "day")).self = "IDENTIFIER" ∧
    ¬ (getType (semanticChecking dateCatalog [("events", "ev")]
          (newIdentifier "ev" "day")).self = "NUMERIC" ∨
       getType (semanticChecking dateCatalog [("events", "ev")]
          (newIdentifier "ev" "day")).self = "STRING" ∨
       getType (semanticChecking dateCatalog [("events", "ev")]
          (newIdentifier "ev" "day")).self = "BOOL") := by
  decide

/-- C3 (amended): if `Identifier::semanticChecking` returns true then the type reported
afterwards is one of `"NUMERIC"`, `"STRING"`, `"BOOL"`, or else the physical type found
in the catalog is none of `"int"`, `"double"`, `"string"`, `"bool"` and the reported
type is the one the node had before the call. -/
theorem identifier_success_type (catalog : MyDB_Catalog) (L : TableList) (t a ty : String)
    (h : (semanticChecking catalog L (Identifier t a ty)).result = true) :
    (getType (semanticChecking catalog L (Identifier t a ty)).self = "NUMERIC" ∨
     getType (semanticChecking catalog L (Identifier t a ty)).self = "STRING" ∨
     getType (semanticChecking catalog L (Identifier t a ty)).self = "BOOL") ∨
    (getType (semanticChecking catalog L (Identifier t a ty)).self
        = getType (Identifier t a ty) ∧
      ∃ pre p post v, L = pre ++ (p, t) :: post ∧ (∀ e ∈ pre, e.2 ≠ t) ∧
        catalog.getString (p ++ "." ++ a ++ ".type") = some v ∧
        v ≠ "int" ∧ v ≠ "double" ∧ v ≠ "string" ∧ v ≠ "bool") := by
  by_cases hs : (scanTables t L).1 = false
  · simp [semanticChecking, hs] at h
  · have hs1 : (scanTables t L).1 = true := by simpa using hs
    obtain ⟨pre, post, hL, hpre⟩ := scanTables_true_split t L hs1
    have hsc : scanTables t L = (true, (scanTables t L).2) := Prod.ext hs1 rfl
    cases hv : catalog.getString ((scanTables t L).2 ++ "." ++ a ++ ".type") with
    | none => simp [semanticChecking, hs, hv] at h
    | some v =>
      rw [identifier_found catalog L t a ty _ v hsc hv]
      by_cases h1 : v = "int" ∨ v = "double"
      · left; left; rw [if_pos h1]; rfl
      · by_cases h2 : v = "string"
        · left; right; left; rw [if_neg h1, if_pos h2]; rfl
        · by_cases h3 : v = "bool"
          · left; right; right; rw [if_neg h1, if_neg h2, if_pos h3]; rfl
          · right
            rw [if_neg h1, if_neg h2, if_neg h3]
            refine ⟨rfl, pre, _, post, v, hL, hpre, hv, ?_, ?_, h2, h3⟩
            · exact fun h => h1 (Or.inl h)
            · exact fun h => h1 (Or.inr h)

/-- Both sides of the amended C3: an identifier that resolves to `"NUMERIC"`, and one
whose attribute has the physical type `"date"` and keeps the placeholder. -/
theorem identifier_success_type_witness :
    ((semanticChecking employeesCatalog [("employees", "e")]
        (Identifier "e" "salary" "IDENTIFIER")).result = true ∧
     getType (semanticChecking employeesCatalog [("employees", "e")]
        (Identifier "e" "salary" "IDENTIFIER")).self = "NUMERIC") ∧
    ((semanticChecking dateCatalog [("events", "ev")]
        (Identifier "ev" "day" "IDENTIFIER")).result = true ∧
     getType (semanticChecking dateCatalog [("events", "ev")]
        (Identifier "ev" "day" "IDENTIFIER")).self = "IDENTIFIER") :=
  ⟨⟨by decide,
    (identifier_success_type employeesCatalog [("employees", "e")] "e" "salary" "IDENTIFIER"
        (by decide)).elim
      (fun h => h.elim id (fun h2 => absurd h2 (by decide)))
      (fun h => absurd h.1 (by decide))⟩,
   ⟨by decide,
    (identifier_success_type dateCatalog [("events", "ev")] "ev" "day" "IDENTIFIER"
        (by decide)).elim
      (fun h => absurd h (by decide))
      (fun h => h.1)⟩⟩

/-- C4: if `Identifier::semanticChecking` returns false then `getType` after the call
equals `getType` before the call, whatever type the node had stored before (the
placeholder or a type resolved earlier); the node is in fact left as it was. -/
theorem identifier_failure_keeps_type (catalog : MyDB_Catalog) (L : TableList)
    (t a ty : String)
    (h : (semanticChecking catalog L (Identifier t a ty)).result = false) :
    getType (semanticChecking catalog L (Identifier t a ty)).self
      = getType (Identifier t a ty) ∧
    (semanticChecking catalog L (Identifier t a ty)).self = Identifier t a ty := by
  have key : (semanticChecking catalog L (Identifier t a ty)).self = Identifier t a ty := by
    revert h
    simp only [semanticChecking]
    split
    · simp
    · split
      · simp
      · split_ifs <;> simp
  exact ⟨by rw [key], key⟩

/-- A node resolved earlier to `"NUMERIC"` keeps that type when a later check fails,
once for an unknown attribute and once for an unknown alias. -/
theorem identifier_failure_keeps_type_witness :
    ((semanticChecking emptyCatalog [("employees", "e")]
        (Identifier "e" "salary" "NUMERIC")).result = false ∧
     getType (semanticChecking emptyCatalog [("employees", "e")]
        (Identifier "e" "salary" "NUMERIC")).self = "NUMERIC") ∧
    ((semanticChecking employeesCatalog [] (Identifier "e" "salary" "NUMERIC")).result
        = false ∧
     getType (semanticChecking employeesCatalog []
        (Identifier "e" "salary" "NUMERIC")).self = "NUMERIC") :=
  ⟨⟨by decide,
    (identifier_failure_keeps_type emptyCatalog [("employees", "e")] "e" "salary" "NUMERIC"
      (by decide)).1⟩,
   ⟨by decide,
    (identifier_failure_keeps_type employeesCatalog [] "e" "salary" "NUMERIC"
      (by decide)).1⟩⟩

/-! ## Arithmetic operators -/

/-- C5: `PlusOp::semanticChecking` returns true if and only if the checks of both
operands return true and, afterwards, the operands report the same type and that type
is `"NUMERIC"` or `"STRING"`.  On success the operands of the node are the checked
operands and `PlusOp::getType` is their common type.  Every other pairing (equal types
such as BOOL and BOOL, or different types) therefore returns false. -/
theorem plus_check_iff (catalog : MyDB_Catalog) (L : TableList) (l r : ExprTree)
    (ty : String) :
    ((semanticChecking catalog L (PlusOp l r ty)).result = true ↔
      ((semanticChecking catalog L l).result = true ∧
       (semanticChecking catalog L r).result = true ∧
       getType (semanticChecking catalog L l).self
         = getType (semanticChecking catalog L r).self ∧
       (getType (semanticChecking catalog L l).self = "NUMERIC" ∨
        getType (semanticChecking catalog L l).self = "STRING"))) ∧
    ((semanticChecking catalog L (PlusOp l r ty)).result = true →
      ((semanticChecking catalog L (PlusOp l r ty)).self =
          PlusOp (semanticChecking catalog L l).self (semanticChecking catalog L r).self
            (getType (semanticChecking catalog L l).self) ∧
       getType (semanticChecking catalog L (PlusOp l r ty)).self =
          getType (semanticChecking catalog L l).self ∧
       getType (semanticChecking catalog L (PlusOp l r ty)).self =
          getType (semanticChecking catalog L r).self)) := by
  simp only [semanticChecking]
  split_ifs <;> simp_all [getType]

/-- String concatenation succeeds with type `"STRING"`; BOOL + BOOL and NUMERIC + STRING
are rejected. -/
theorem plus_check_iff_witness :
    getType (semanticChecking emptyCatalog []
      (newPlusOp (StringLiteral "a") (StringLiteral "b"))).self = "STRING" ∧
    (semanticChecking emptyCatalog []
      (newPlusOp (BoolLiteral true) (BoolLiteral false))).result = false ∧
    (semanticChecking emptyCatalog []
      (newPlusOp (IntLiteral 1) (StringLiteral "b"))).result = false :=
  ⟨((plus_check_iff emptyCatalog [] (StringLiteral "a") (StringLiteral "b") "").2
      (by decide)).2.1.trans (by decide),
   by decide, by decide⟩

/-- C6: a successful check of `MinusOp`, `TimesOp` or `DivideOp` over `(l, r)`, or of
`SumOp` or `AvgOp` over `c`, means that every operand checked successfully and reports
`"NUMERIC"` afterwards, and the operator itself reports `"NUMERIC"`.  This holds at
every depth: in the tree left by a successful check, every operand of every such node
reports `"NUMERIC"`. -/
theorem arithmetic_operands_numeric (catalog : MyDB_Catalog) (L : TableList) :
    (∀ op : ExprTree → ExprTree → ExprTree, op ∈ [MinusOp, TimesOp, DivideOp] →
      ∀ l r : ExprTree, (semanticChecking catalog L (op l r)).result = true →
        (semanticChecking catalog L l).result = true ∧
        (semanticChecking catalog L r).result = true ∧
        getType (semanticChecking catalog L l).self = "NUMERIC" ∧
        getType (semanticChecking catalog L r).self = "NUMERIC" ∧
        (semanticChecking catalog L (op l r)).self =
          op (semanticChecking catalog L l).self (semanticChecking catalog L r).self ∧
        getType (semanticChecking catalog L (op l r)).self = "NUMERIC") ∧
    (∀ op : ExprTree → ExprTree, op ∈ [SumOp, AvgOp] →
      ∀ c : ExprTree, (semanticChecking catalog L (op c)).result = true →
        (semanticChecking catalog L c).result = true ∧
        getType (semanticChecking catalog L c).self = "NUMERIC" ∧
        (semanticChecking catalog L (op c)).self = op (semanticChecking catalog L c).self ∧
        getType (semanticChecking catalog L (op c)).self = "NUMERIC") ∧
    (∀ e : ExprTree, (semanticChecking catalog L e).result = true →
        numericOperands (semanticChecking catalog L e).self = true) := by
  refine ⟨?_, ?_, numericOperands_of_success catalog L⟩
  · intro op hop l r
    simp only [List.mem_cons, List.mem_singleton, List.not_mem_nil, or_false] at hop
    rcases hop with rfl | rfl | rfl <;>
    · simp only [semanticChecking]
      split_ifs <;> simp_all [getType]
  · intro op hop c
    simp only [List.mem_cons, List.mem_singleton, List.not_mem_nil, or_false] at hop
    rcases hop with rfl | rfl <;>
    · simp only [semanticChecking]
      split_ifs <;> simp_all [getType]

/-- The tree `sum (salary - 1) > 0` over a resolving identifier: the operand of `-`
that is an identifier reports `"NUMERIC"` after the check. -/
theorem arithmetic_operands_numeric_witness :
    (semanticChecking employeesCatalog [("employees", "e")]
      (MinusOp (newIdentifier "e" "salary") (IntLiteral 1))).result = true ∧
    getType (semanticChecking employeesCatalog [("employees", "e")]
      (newIdentifier "e" "salary")).self = "NUMERIC" ∧
    numericOperands (semanticChecking employeesCatalog [("employees", "e")]
      (GtOp (SumOp (MinusOp (newIdentifier "e" "salary") (IntLiteral 1)))
        (IntLiteral 0))).self = true :=
  ⟨by decide,
   ((arithmetic_operands_numeric employeesCatalog [("employees", "e")]).1 MinusOp
      (List.mem_cons_self _ _) (newIdentifier "e" "salary") (IntLiteral 1) (by decide)).2.2.1,
   (arithmetic_operands_numeric employeesCatalog [("employees", "e")]).2.2
      (GtOp (SumOp (MinusOp (newIdentifier "e" "salary") (IntLiteral 1))) (IntLiteral 0))
      (by decide)⟩

/-- C9: for all integers `a` and `n`, zero included, the check of
`DivideOp (IntLiteral a, IntLiteral n)` returns true under every catalog and table
list and prints nothing: the right operand is rendered `int[n]`, which is never the
text `0` that the division-by-zero test compares with. -/
theorem divide_int_literals_check (catalog : MyDB_Catalog) (L : TableList) (a n : Int) :
    (semanticChecking catalog L (DivideOp (IntLiteral a) (IntLiteral n))).result = true ∧
    ExprTree.toString (IntLiteral n) = "int[" ++ to_string_int n ++ "]" ∧
    ExprTree.toString (IntLiteral n) ≠ "0" ∧
    (semanticChecking catalog L (DivideOp (IntLiteral a) (IntLiteral n))).cout = "" ∧
    (semanticChecking catalog L (DivideOp (IntLiteral 5) (IntLiteral 0))).result = true ∧
    ExprTree.toString (IntLiteral 0) = "int[0]" := by
  have hz := toString_IntLiteral_ne_zero n
  have hz0 := toString_IntLiteral_ne_zero 0
  refine ⟨?_, rfl, hz, ?_, ?_, by decide⟩ <;>
  · simp only [semanticChecking]
    simp [hz, hz0, getType]

/-! ## Comparison and logical operators -/

/-- C7: for each of `GtOp`, `LtOp`, `EqOp`, `NeqOp` over `(l, r)`, the check returns
true if and only if both operand checks return true and the operands then report equal
type strings; no restriction to `"NUMERIC"` applies, so `==` on two boolean literals and
`>` on two string literals succeed.  The node reports `"BOOL"` before and after any
check.  Since the operands are checked first, `>` over a never-checked identifier and
an integer literal succeeds in one call whenever the identifier resolves to
`"NUMERIC"`. -/
theorem comparison_check_iff (catalog : MyDB_Catalog) (L : TableList) :
    (∀ op : ExprTree → ExprTree → ExprTree, op ∈ [GtOp, LtOp, EqOp, NeqOp] →
      ∀ l r : ExprTree,
        ((semanticChecking catalog L (op l r)).result = true ↔
          ((semanticChecking catalog L l).result = true ∧
           (semanticChecking catalog L r).result = true ∧
           getType (semanticChecking catalog L l).self =
             getType (semanticChecking catalog L r).self)) ∧
        ((semanticChecking catalog L (op l r)).result = true →
          (semanticChecking catalog L (op l r)).self =
            op (semanticChecking catalog L l).self (semanticChecking catalog L r).self) ∧
        getType (op l r) = "BOOL" ∧
        getType (semanticChecking catalog L (op l r)).self = "BOOL") ∧
    (∀ a b : Bool,
      (semanticChecking catalog L (EqOp (BoolLiteral a) (BoolLiteral b))).result = true) ∧
    (∀ s u : String,
      (semanticChecking catalog L (GtOp (StringLiteral s) (StringLiteral u))).result
        = true) ∧
    (∀ (t a : String) (n : Int),
      (semanticChecking catalog L (newIdentifier t a)).result = true →
      getType (semanticChecking catalog L (newIdentifier t a)).self = "NUMERIC" →
      (semanticChecking catalog L (GtOp (newIdentifier t a) (IntLiteral n))).result
        = true) := by
  refine ⟨comparison_rule catalog L, ?_, ?_, ?_⟩
  · intro a b; simp [semanticChecking, getType]
  · intro s u; simp [semanticChecking, getType]
  · intro t a n h1 h2
    exact (comparison_rule catalog L GtOp (by simp) (newIdentifier t a) (IntLiteral n)).1.mpr
      ⟨h1, rfl, h2⟩

/-- The scenario `salary > 1000` over a never-checked identifier. -/
theorem comparison_check_iff_witness :
    getType (newIdentifier "employees" "salary") = "IDENTIFIER" ∧
    (semanticChecking employeesCatalog [("employees", "employees")]
      (GtOp (newIdentifier "employees" "salary") (IntLiteral 1000))).result = true :=
  ⟨rfl,
   (comparison_check_iff employeesCatalog [("employees", "employees")]).2.2.2
      "employees" "salary" 1000 (by decide) (by decide)⟩

/-- C8: `OrOp::semanticChecking` returns true iff both operand checks return true and
both operands report `"BOOL"`; `NotOp::semanticChecking` returns true iff the operand
check returns true and the operand reports `"BOOL"`; both nodes report `"BOOL"`.  When
the operands check successfully but are not both BOOL, the only text printed is the
"must be boolean" diagnostic, which is not the "must have the same type" one. -/
theorem logical_check_iff (catalog : MyDB_Catalog) (L : TableList) (l r c : ExprTree) :
    ((semanticChecking catalog L (OrOp l r)).result = true ↔
      ((semanticChecking catalog L l).result = true ∧
       (semanticChecking catalog L r).result = true ∧
       getType (semanticChecking catalog L l).self = "BOOL" ∧
       getType (semanticChecking catalog L r).self = "BOOL")) ∧
    ((semanticChecking catalog L (NotOp c)).result = true ↔
      ((semanticChecking catalog L c).result = true ∧
       getType (semanticChecking catalog L c).self = "BOOL")) ∧
    getType (OrOp l r) = "BOOL" ∧
    getType (semanticChecking catalog L (OrOp l r)).self = "BOOL" ∧
    getType (NotOp c) = "BOOL" ∧
    getType (semanticChecking catalog L (NotOp c)).self = "BOOL" ∧
    ((semanticChecking catalog L l).result = true →
     (semanticChecking catalog L r).result = true →
     ¬ (getType (semanticChecking catalog L l).self = "BOOL" ∧
        getType (semanticChecking catalog L r).self = "BOOL") →
      (semanticChecking catalog L (OrOp l r)).result = false ∧
      (semanticChecking catalog L (OrOp l r)).cout =
        "Operands of || operator must be boolean. lhs's type: "
          ++ getType (semanticChecking catalog L l).self ++ " rhs's type: "
          ++ getType (semanticChecking catalog L r).self ++ "\n" ∧
      ∀ x y : String, (semanticChecking catalog L (OrOp l r)).cout ≠
        "Operands of || operator must have the same type. lhs's type: "
          ++ x ++ " rhs's type: " ++ y ++ "\n") ∧
    ((semanticChecking catalog L c).result = true →
     getType (semanticChecking catalog L c).self ≠ "BOOL" →
      (semanticChecking catalog L (NotOp c)).result = false ∧
      (semanticChecking catalog L (NotOp c)).cout =
        "Operand of ! operator must be boolean. Operand's type: "
          ++ getType (semanticChecking catalog L c).self ++ "\n") := by
  refine ⟨?_, ?_, rfl, ?_, rfl, ?_, ?_, ?_⟩
  · simp only [semanticChecking]
    split_ifs <;> simp_all
    tauto
  · simp only [semanticChecking]
    split_ifs <;> simp_all
  · simp only [semanticChecking]
    split_ifs <;> rfl
  · simp only [semanticChecking]
    split_ifs <;> rfl
  · intro hl hr hne
    have hl0 := cout_empty_of_success catalog L l hl
    have hr0 := cout_empty_of_success catalog L r hr
    have hne2 : getType (semanticChecking catalog L l).self ≠ "BOOL" ∨
        getType (semanticChecking catalog L r).self ≠ "BOOL" := by
      by_contra hcon
      push_neg at hcon
      exact hne hcon
    have hcout : (semanticChecking catalog L (OrOp l r)).cout =
        "Operands of || operator must be boolean. lhs's type: "
          ++ getType (semanticChecking catalog L l).self ++ " rhs's type: "
          ++ getType (semanticChecking catalog L r).self ++ "\n" := by
      simp only [semanticChecking, hl, hr, Bool.true_eq_false, if_false, if_pos hne2, hl0, hr0]
      simp
    refine ⟨?_, hcout, ?_⟩
    · simp only [semanticChecking, hl, hr, Bool.true_eq_false, if_false, if_pos hne2]
    · intro x y heq
      rw [hcout] at heq
      have h29 := congrArg (fun s : String => s.data[29]?) heq
      simp only [String.append_assoc] at h29
      rw [data_getElem_append _ _ 29 (by decide), data_getElem_append _ _ 29 (by decide)] at h29
      exact absurd h29 (by decide)
  · intro hc hne
    have hc0 := cout_empty_of_success catalog L c hc
    simp only [semanticChecking, hc, Bool.true_eq_false, if_false, if_pos hne, hc0]
    simp

/-- The scenario `true || 1`: both operands check, the right one is NUMERIC, and the
node fails with the "must be boolean" diagnostic. -/
theorem logical_check_iff_witness :
    (semanticChecking emptyCatalog [] (BoolLiteral true)).result = true ∧
    (semanticChecking emptyCatalog [] (IntLiteral 1)).result = true ∧
    (semanticChecking emptyCatalog [] (OrOp (BoolLiteral true) (IntLiteral 1))).result
      = false ∧
    (semanticChecking emptyCatalog [] (OrOp (BoolLiteral true) (IntLiteral 1))).cout =
      "Operands of || operator must be boolean. lhs's type: BOOL rhs's type: NUMERIC\n" :=
  have h := (logical_check_iff emptyCatalog [] (BoolLiteral true) (IntLiteral 1)
    (IntLiteral 1)).2.2.2.2.2.2.1 (by decide) (by decide) (by decide)
  ⟨by decide, by decide, h.1, h.2.1.trans (by decide)⟩

/-! ## Literals -/

/-- C10: for every literal node, under every catalog and table list, the check returns
true, prints nothing and leaves the node as it was, also over any number of checks
under any catalogs; `getType` is `"BOOL"` for `BoolLiteral`, `"NUMERIC"` for
`IntLiteral` and `DoubleLiteral`, `"STRING"` for `StringLiteral`, before and after.
`IntLiteral (n)` is rendered `int[` followed by the decimal form of `n` and `]`;
`IntLiteral (5)` gives `int[5]`, NUMERIC, check true. -/
theorem literal_check (catalog : MyDB_Catalog) (L : TableList) :
    (∀ e : ExprTree, isLiteral e = true →
      (semanticChecking catalog L e).result = true ∧
      (semanticChecking catalog L e).self = e ∧
      (semanticChecking catalog L e).cout = "" ∧
      ∀ runs : List (MyDB_Catalog × TableList),
        afterChecks runs e = e ∧
        checkResults runs e = List.replicate runs.length true ∧
        getType (afterChecks runs e) = getType e) ∧
    (∀ b : Bool, isLiteral (BoolLiteral b) = true ∧ getType (BoolLiteral b) = "BOOL") ∧
    (∀ n : Int, isLiteral (IntLiteral n) = true ∧ getType (IntLiteral n) = "NUMERIC") ∧
    (∀ d : Double,
      isLiteral (DoubleLiteral d) = true ∧ getType (DoubleLiteral d) = "NUMERIC") ∧
    (∀ s : String,
      isLiteral (StringLiteral s) = true ∧ getType (StringLiteral s) = "STRING") ∧
    (∀ n : Int, ExprTree.toString (IntLiteral n) = "int[" ++ to_string_int n ++ "]") ∧
    (∀ n : Nat, to_string_int (n : Int) = Nat.repr n ∧
      to_string_int (-((n : Int) + 1)) = "-" ++ Nat.repr (n + 1)) ∧
    (ExprTree.toString (IntLiteral 5) = "int[5]" ∧ getType (IntLiteral 5) = "NUMERIC" ∧
      (semanticChecking catalog L (IntLiteral 5)).result = true) := by
  refine ⟨?_, fun _ => ⟨rfl, rfl⟩, fun _ => ⟨rfl, rfl⟩, fun _ => ⟨rfl, rfl⟩,
    fun _ => ⟨rfl, rfl⟩, fun _ => rfl, ?_, ?_⟩
  · intro e he
    have h1 : semanticChecking catalog L e = ⟨true, e, ""⟩ := by
      cases e <;> simp [isLiteral] at he <;> simp [semanticChecking]
    refine ⟨by rw [h1], by rw [h1], by rw [h1], fun runs => ?_⟩
    have h2 := afterChecks_literal runs e he
    exact ⟨h2.1, h2.2, by rw [h2.1]⟩
  · intro n
    exact ⟨rfl, rfl⟩
  · exact ⟨by decide, rfl, rfl⟩

/-- A string literal checked three times, under different catalogs. -/
theorem literal_check_witness :
    afterChecks [(emptyCatalog, []), (employeesCatalog, [("employees", "e")]),
        (dateCatalog, [])] (StringLiteral "hello") = StringLiteral "hello" ∧
    checkResults [(emptyCatalog, []), (employeesCatalog, [("employees", "e")]),
        (dateCatalog, [])] (StringLiteral "hello") = [true, true, true] :=
  have h := ((literal_check emptyCatalog []).1 (StringLiteral "hello") rfl).2.2.2
    [(emptyCatalog, []), (employeesCatalog, [("employees", "e")]), (dateCatalog, [])]
  ⟨h.1, h.2.1⟩

/-! ## Auxiliary facts on stored types, rendering and printed texts -/

/-- A check changes nothing of a tree but its stored types. -/
theorem asConstructed_after_check (catalog : MyDB_Catalog) (L : TableList) (e : ExprTree) :
    asConstructed (semanticChecking catalog L e).self = asConstructed e := by
  induction e with
  | Identifier t a ty =>
    simp only [semanticChecking]
    split
    · rfl
    · split
      · rfl
      · split_ifs <;> rfl
  | _ =>
    first
      | rfl
      | (simp only [semanticChecking]; split_ifs <;> simp_all [asConstructed])

/-- The rendering of a tree is the rendering of the tree as constructed. -/
theorem toString_asConstructed (e : ExprTree) :
    ExprTree.toString (asConstructed e) = ExprTree.toString e := by
  induction e <;> simp_all [asConstructed, ExprTree.toString]

/-- A check does not change the rendering of the tree. -/
theorem toString_after_check (catalog : MyDB_Catalog) (L : TableList) (e : ExprTree) :
    ExprTree.toString (semanticChecking catalog L e).self = ExprTree.toString e := by
  rw [← toString_asConstructed, asConstructed_after_check, toString_asConstructed]

/-- A failed identifier check leaves the node as it was. -/
theorem identifier_unchanged_of_failure (catalog : MyDB_Catalog) (L : TableList)
    (t a ty : String)
    (h : (semanticChecking catalog L (Identifier t a ty)).result = false) :
    (semanticChecking catalog L (Identifier t a ty)).self = Identifier t a ty := by
  revert h
  simp only [semanticChecking]
  split
  · simp
  · split
    · simp
    · split_ifs <;> simp

/-- An identifier on which every check so far has failed is as it was constructed. -/
theorem identifier_after_failures (runs : List (MyDB_Catalog × TableList)) (t a ty : String)
    (h : ∀ b ∈ checkResults runs (Identifier t a ty), b = false) :
    afterChecks runs (Identifier t a ty) = Identifier t a ty := by
  induction runs with
  | nil => rfl
  | cons run runs ih =>
    simp only [checkResults, List.mem_cons, forall_eq_or_imp] at h
    have h1 := identifier_unchanged_of_failure run.1 run.2 t a ty h.1
    rw [h1] at h
    simp only [afterChecks, List.foldl_cons, h1]
    exact ih h.2

/-- A text that starts with a literal whose first character is not `0` is not `"0"`. -/
theorem ne_zero_of_first (p x : String) (h0 : 0 < p.data.length)
    (hne : p.data[0]? ≠ ("0" : String).data[0]?) : p ++ x ≠ "0" := by
  intro h
  have h1 := congrArg (fun s : String => s.data[0]?) h
  simp only at h1
  rw [data_getElem_append p x 0 h0] at h1
  exact hne h1

/-- No node is rendered as the bare text `0`. -/
theorem toString_ne_zero (e : ExprTree) : ExprTree.toString e ≠ "0" := by
  cases e with
  | BoolLiteral b => cases b <;> decide
  | _ =>
    simp only [ExprTree.toString, String.append_assoc]
    exact ne_zero_of_first _ _ (by decide) (by decide)

/-- On a NUL-free buffer `strlen` is the number of characters. -/
theorem strlen_of_nul_free (s : List Char) (h : ∀ c ∈ s, c ≠ Char.ofNat 0) :
    strlen s = s.length := by
  unfold strlen
  rw [List.takeWhile_eq_self_iff.mpr]
  intro c hc
  simpa using h c hc

/-- Cutting the last character and skipping the first, on a list of at least two. -/
theorem strip_ends (s : List Char) (hlen : 2 ≤ s.length) :
    ∃ a b, s = a :: ((s.drop 1).dropLast ++ [b]) ∧
      (s.take (s.length - 1)).drop 1 = (s.drop 1).dropLast := by
  cases s with
  | nil => simp at hlen
  | cons a t =>
    have ht : t ≠ [] := by
      intro h0
      simp [h0] at hlen
    refine ⟨a, t.getLast ht, ?_, ?_⟩
    · simp [List.dropLast_append_getLast ht]
    · simp only [List.length_cons, Nat.add_sub_cancel, List.drop_succ_cons, List.drop_zero]
      cases t with
      | nil => exact absurd rfl ht
      | cons b u =>
        simp [List.dropLast_eq_take]

/-! ### Whitespace in rendered text -/

/-- Whitespace-freedom of a concatenation. -/
theorem whitespaceFree_append (a b : String) :
    whitespaceFree (a ++ b) = (whitespaceFree a && whitespaceFree b) := by
  simp [whitespaceFree, String.data_append, List.all_append]

/-- The blanks-only property of a concatenation. -/
theorem blanksOnly_append (a b : String) :
    blanksOnly (a ++ b) = (blanksOnly a && blanksOnly b) := by
  simp [blanksOnly, String.data_append, List.all_append]

/-- The spaces of a concatenation. -/
theorem spaces_append (a b : String) : spaces (a ++ b) = spaces a + spaces b := by
  simp [spaces, String.data_append, List.count_append]

/-- A whitespace-free text has blanks only (none). -/
theorem blanksOnly_of_whitespaceFree (s : String) (h : whitespaceFree s = true) :
    blanksOnly s = true := by
  simp only [whitespaceFree, blanksOnly, List.all_eq_true] at h ⊢
  intro c hc
  simp [h c hc]

/-- A whitespace-free text has no space. -/
theorem spaces_of_whitespaceFree (s : String) (h : whitespaceFree s = true) :
    spaces s = 0 := by
  simp only [whitespaceFree, List.all_eq_true] at h
  simp only [spaces, List.count_eq_zero]
  intro hc
  have := h _ hc
  revert this
  decide

/-- A text whose only whitespace is the space and that has no space is whitespace-free. -/
theorem whitespaceFree_of_no_space (s : String) (hb : blanksOnly s = true)
    (hs : spaces s = 0) : whitespaceFree s = true := by
  simp only [blanksOnly, List.all_eq_true, Bool.or_eq_true, Bool.not_eq_true',
    beq_iff_eq] at hb
  simp only [spaces, List.count_eq_zero] at hs
  simp only [whitespaceFree, List.all_eq_true, Bool.not_eq_true']
  intro c hc
  rcases hb c hc with h | h
  · exact h
  · exact absurd (h ▸ hc) hs

/-- The ten decimal digit characters are not whitespace. -/
theorem digitChar_not_whitespace (n : Nat) (h : n < 10) :
    (Nat.digitChar n).isWhitespace = false := by
  revert n
  decide

/-- The digit loop of `Nat.repr` produces no whitespace. -/
theorem toDigitsCore_whitespaceFree (fuel n : Nat) (ds : List Char)
    (hds : ds.all (fun c => !c.isWhitespace) = true) :
    (Nat.toDigitsCore 10 fuel n ds).all (fun c => !c.isWhitespace) = true := by
  induction fuel generalizing n ds with
  | zero => simpa [Nat.toDigitsCore] using hds
  | succ fuel ih =>
    have hd : (Nat.digitChar (n % 10)).isWhitespace = false :=
      digitChar_not_whitespace _ (Nat.mod_lt _ (by decide))
    have hcons : (Nat.digitChar (n % 10) :: ds).all (fun c => !c.isWhitespace) = true := by
      simp only [List.all_cons, hd, Bool.not_false, Bool.true_and]
      exact hds
    simp only [Nat.toDigitsCore]
    split_ifs
    · exact hcons
    · exact ih _ _ hcons

/-- The decimal form of a natural number is whitespace-free. -/
theorem repr_whitespaceFree (n : Nat) : whitespaceFree (Nat.repr n) = true := by
  simp only [whitespaceFree, Nat.repr, Nat.toDigits, List.asString]
  exact toDigitsCore_whitespaceFree _ _ _ rfl

/-- The rendering of an `int` is whitespace-free. -/
theorem to_string_int_whitespaceFree (n : Int) : whitespaceFree (to_string_int n) = true := by
  cases n with
  | ofNat m => exact repr_whitespaceFree m
  | negSucc m =>
    simp only [to_string_int, whitespaceFree_append, repr_whitespaceFree, Bool.and_true]
    decide

/-- Six padded decimals are whitespace-free. -/
theorem sixDigits_whitespaceFree (n : Nat) : whitespaceFree (sixDigits n) = true := by
  simp only [sixDigits, whitespaceFree_append, repr_whitespaceFree, Bool.and_true]
  simp [whitespaceFree]

/-- A conditional between two whitespace-free texts is whitespace-free. -/
theorem whitespaceFree_ite (c : Prop) [Decidable c] (a b : String)
    (ha : whitespaceFree a = true) (hb : whitespaceFree b = true) :
    whitespaceFree (if c then a else b) = true := by
  split_ifs <;> assumption

/-- The rendering of a `double` is whitespace-free. -/
theorem to_string_double_whitespaceFree (d : Double) :
    whitespaceFree (to_string_double d) = true := by
  have hinf : whitespaceFree "inf" = true := by decide
  have hnan : whitespaceFree "nan" = true := by decide
  have hdot : whitespaceFree "." = true := by decide
  have hs : ∀ (c : Prop) [Decidable c], whitespaceFree (if c then "-" else "") = true :=
    fun c _ => whitespaceFree_ite c _ _ (by decide) (by decide)
  unfold to_string_double
  dsimp only
  refine whitespaceFree_ite _ _ _ (whitespaceFree_ite _ _ _ ?_ ?_) ?_ <;>
    simp only [whitespaceFree_append, repr_whitespaceFree, sixDigits_whitespaceFree,
      hs, hinf, hnan, hdot, Bool.and_self]

/-- With clean payloads the rendering has spaces as its only whitespace, two for each
node with two operands. -/
theorem toString_spaces (e : ExprTree) (h : cleanPayloads e = true) :
    blanksOnly (ExprTree.toString e) = true ∧
    spaces (ExprTree.toString e) = 2 * binaryNodes e := by
  induction e with
  | BoolLiteral b => cases b <;> decide
  | DoubleLiteral d =>
    have := to_string_double_whitespaceFree d
    simp only [ExprTree.toString, blanksOnly_append, spaces_append, binaryNodes,
      blanksOnly_of_whitespaceFree _ this, spaces_of_whitespaceFree _ this]
    decide
  | IntLiteral n =>
    have := to_string_int_whitespaceFree n
    simp only [ExprTree.toString, blanksOnly_append, spaces_append, binaryNodes,
      blanksOnly_of_whitespaceFree _ this, spaces_of_whitespaceFree _ this]
    decide
  | StringLiteral s =>
    simp only [cleanPayloads] at h
    simp only [ExprTree.toString, blanksOnly_append, spaces_append, binaryNodes,
      blanksOnly_of_whitespaceFree _ h, spaces_of_whitespaceFree _ h]
    decide
  | Identifier t a ty =>
    simp only [cleanPayloads, Bool.and_eq_true] at h
    simp only [ExprTree.toString, blanksOnly_append, spaces_append, binaryNodes,
      blanksOnly_of_whitespaceFree _ h.1, spaces_of_whitespaceFree _ h.1,
      blanksOnly_of_whitespaceFree _ h.2, spaces_of_whitespaceFree _ h.2]
    decide
  | NotOp c ih | SumOp c ih | AvgOp c ih =>
    simp only [cleanPayloads] at h
    have hc := ih h
    simp only [ExprTree.toString, blanksOnly_append, spaces_append, binaryNodes, hc.1, hc.2]
    refine ⟨by decide, ?_⟩
    have h1 : spaces "!(" = 0 := by decide
    have h2 : spaces ")" = 0 := by decide
    have h3 : spaces "sum(" = 0 := by decide
    have h4 : spaces "avg(" = 0 := by decide
    omega
  | MinusOp l r ihl ihr | TimesOp l r ihl ihr | DivideOp l r ihl ihr | GtOp l r ihl ihr
  | LtOp l r ihl ihr | NeqOp l r ihl ihr | OrOp l r ihl ihr | EqOp l r ihl ihr
  | PlusOp l r ty ihl ihr =>
    simp only [cleanPayloads, Bool.and_eq_true] at h
    have hl := ihl h.1
    have hr := ihr h.2
    simp only [ExprTree.toString, blanksOnly_append, spaces_append, binaryNodes, hl.1, hl.2,
      hr.1, hr.2]
    refine ⟨by decide, ?_⟩
    have h2 : spaces ", " = 1 := by decide
    have h3 : spaces ")" = 0 := by decide
    have h4 : spaces "- (" = 1 := by decide
    have h5 : spaces "+ (" = 1 := by decide
    have h6 : spaces "* (" = 1 := by decide
    have h7 : spaces "/ (" = 1 := by decide
    have h8 : spaces "> (" = 1 := by decide
    have h9 : spaces "< (" = 1 := by decide
    have h10 : spaces "!= (" = 1 := by decide
    have h11 : spaces "|| (" = 1 := by decide
    have h12 : spaces "== (" = 1 := by decide
    omega

/-! ### The texts printed by a check -/

/-- Two lists that extend to one list agree wherever both are defined. -/
theorem zipWith_agree (a b x y : List Char) (h : a ++ x = b ++ y) :
    (List.zipWith (fun c d => c != d) a b).any id = false := by
  induction a generalizing b with
  | nil => simp
  | cons c a ih =>
    cases b with
    | nil => simp
    | cons d b =>
      simp only [List.cons_append, List.cons.injEq] at h
      simp only [List.zipWith_cons_cons, List.any_cons, id_eq, ih b h.2, Bool.or_false]
      simp [h.1]

/-- Texts that begin with literals differing at some common position are different. -/
theorem ne_of_differsWithin (p q : String) (h : differsWithin p q = true) (x y : String) :
    p ++ x ≠ q ++ y := by
  intro heq
  have hd : p.data ++ x.data = q.data ++ y.data := by
    rw [← String.data_append, ← String.data_append, heq]
  have := zipWith_agree _ _ _ _ hd
  rw [differsWithin, this] at h
  exact Bool.noConfusion h

/-- The empty text is not a text that begins with a non-empty literal. -/
theorem empty_ne_append (q y : String) (h : q.data ≠ []) : "" ≠ q ++ y := by
  intro heq
  have hd := congrArg String.data heq
  rw [String.data_append] at hd
  cases hq : q.data with
  | nil => exact h hq
  | cons c t =>
    rw [hq] at hd
    exact List.noConfusion hd

/-- What a check prints is nothing, or a text that begins with one of the literals of
`diagnosticHeads`. -/
theorem cout_shape (catalog : MyDB_Catalog) (L : TableList) (e : ExprTree) :
    (semanticChecking catalog L e).cout = "" ∨
    ∃ p ∈ diagnosticHeads, ∃ rest, (semanticChecking catalog L e).cout = p ++ rest := by
  induction e with
  | Identifier t a ty =>
    simp only [semanticChecking]
    split
    · right
      simp only [String.append_assoc]
      refine ⟨_, ?_, _, rfl⟩
      decide
    · split
      · right
        simp only [String.append_assoc]
        refine ⟨_, ?_, _, rfl⟩
        decide
      · left
        split_ifs <;> rfl
  | BoolLiteral _ => exact Or.inl rfl
  | DoubleLiteral _ => exact Or.inl rfl
  | IntLiteral _ => exact Or.inl rfl
  | StringLiteral _ => exact Or.inl rfl
  | NotOp c ih | SumOp c ih | AvgOp c ih =>
    simp only [semanticChecking]
    split_ifs with h1 h2
    · exact ih
    · have hc := cout_empty_of_success catalog L c (by simpa using h1)
      right
      simp only [hc, String.empty_append, String.append_assoc]
      refine ⟨_, ?_, _, rfl⟩
      decide
    · left
      exact cout_empty_of_success catalog L c (by simpa using h1)
  | MinusOp l r ihl ihr | TimesOp l r ihl ihr | DivideOp l r ihl ihr | GtOp l r ihl ihr
  | LtOp l r ihl ihr | NeqOp l r ihl ihr | OrOp l r ihl ihr | EqOp l r ihl ihr
  | PlusOp l r ty ihl ihr =>
    have hz := toString_ne_zero (semanticChecking catalog L r).self
    simp only [semanticChecking]
    split_ifs <;>
    first
      | exact ihl
      | (have hl := cout_empty_of_success catalog L l (by simp_all)
         simp only [hl, String.empty_append]
         exact ihr)
      | (have hl := cout_empty_of_success catalog L l (by simp_all)
         have hr := cout_empty_of_success catalog L r (by simp_all)
         left
         simp only [hl, hr, String.empty_append]
         done)
      | (exfalso; simp_all; done)
      | (have hl := cout_empty_of_success catalog L l (by simp_all)
         have hr := cout_empty_of_success catalog L r (by simp_all)
         right
         simp only [hl, hr, String.empty_append, String.append_assoc]
         refine ⟨_, ?_, _, rfl⟩
         decide)
      | (have hl := cout_empty_of_success catalog L l (by simp_all)
         have hr := cout_empty_of_success catalog L r (by simp_all)
         right
         simp only [hl, hr, String.empty_append]
         refine ⟨_, ?_, "", (String.append_empty _).symm⟩
         decide)

/-- Every literal of `diagnosticHeads` differs, at a position inside both, from the
beginning of the same-type texts of `-`, `*`, `/` and `||`. -/
theorem heads_differ :
    ∀ p ∈ diagnosticHeads,
      differsWithin p "Operands of - operator must have the same type. lhs's type: " = true ∧
      differsWithin p "Operands of * operator must have the same type. lhs's type: " = true ∧
      differsWithin p "Operands of / operator must have the same type. lhs's type: " = true ∧
      differsWithin p "Operands of || operator must have the same type. lhs's type: " = true := by
  decide

/-- No check prints the same-type text of `-`, `*`, `/` or `||`. -/
theorem never_same_type_text (catalog : MyDB_Catalog) (L : TableList) (e : ExprTree)
    (x y : String) :
    (semanticChecking catalog L e).cout ≠
      "Operands of - operator must have the same type. lhs's type: "
        ++ x ++ " rhs's type: " ++ y ++ "\n" ∧
    (semanticChecking catalog L e).cout ≠
      "Operands of * operator must have the same type. lhs's type: "
        ++ x ++ " rhs's type: " ++ y ++ "\n" ∧
    (semanticChecking catalog L e).cout ≠
      "Operands of / operator must have the same type. lhs's type: "
        ++ x ++ " rhs's type: " ++ y ++ "\n" ∧
    (semanticChecking catalog L e).cout ≠
      "Operands of || operator must have the same type. lhs's type: "
        ++ x ++ " rhs's type: " ++ y ++ "\n" := by
  simp only [String.append_assoc]
  rcases cout_shape catalog L e with h | ⟨p, hp, rest, h⟩
  · rw [h]
    exact ⟨empty_ne_append _ _ (by decide), empty_ne_append _ _ (by decide),
      empty_ne_append _ _ (by decide), empty_ne_append _ _ (by decide)⟩
  · rw [h]
    have hd := heads_differ p hp
    exact ⟨ne_of_differsWithin _ _ hd.1 _ _, ne_of_differsWithin _ _ hd.2.1 _ _,
      ne_of_differsWithin _ _ hd.2.2.1 _ _, ne_of_differsWithin _ _ hd.2.2.2 _ _⟩

/-- No literal of `diagnosticHeads` begins the division-by-zero text. -/
theorem heads_differ_division :
    ∀ p ∈ diagnosticHeads, differsWithin p "Division by zero.\n" = true := by
  decide

/-- No check prints the division-by-zero text. -/
theorem never_division_by_zero_text (catalog : MyDB_Catalog) (L : TableList)
    (e : ExprTree) : (semanticChecking catalog L e).cout ≠ "Division by zero.\n" := by
  rcases cout_shape catalog L e with h | ⟨p, hp, rest, h⟩
  · rw [h]
    decide
  · rw [h, ← String.append_empty "Division by zero.\n"]
    exact ne_of_differsWithin _ _ (heads_differ_division p hp) _ _

/-! ### Independence of the stored types -/

/-- Under a catalog with mapped types only, a check behaves on a tree as on the tree as
constructed: same boolean, same text, and on success the same tree afterwards. -/
theorem check_vs_constructed (catalog : MyDB_Catalog) (L : TableList)
    (hm : mappedTypes catalog) (e : ExprTree) :
    (semanticChecking catalog L e).result =
      (semanticChecking catalog L (asConstructed e)).result ∧
    (semanticChecking catalog L e).cout =
      (semanticChecking catalog L (asConstructed e)).cout ∧
    ((semanticChecking catalog L e).result = true →
      (semanticChecking catalog L e).self =
        (semanticChecking catalog L (asConstructed e)).self) := by
  induction e with
  | BoolLiteral _ => exact ⟨rfl, rfl, fun _ => rfl⟩
  | DoubleLiteral _ => exact ⟨rfl, rfl, fun _ => rfl⟩
  | IntLiteral _ => exact ⟨rfl, rfl, fun _ => rfl⟩
  | StringLiteral _ => exact ⟨rfl, rfl, fun _ => rfl⟩
  | Identifier t a ty =>
    simp only [semanticChecking, asConstructed]
    split
    · simp
    · split
      · simp
      · rename_i v hv
        have hv2 := hm _ _ hv
        rcases hv2 with rfl | rfl | rfl | rfl <;> simp
  | NotOp c ih | SumOp c ih | AvgOp c ih =>
    obtain ⟨hr, hc, hs⟩ := ih
    simp only [semanticChecking, asConstructed, ← hr, ← hc]
    by_cases h : (semanticChecking catalog L c).result = true
    · rw [← hs h]
      simp only [h, Bool.true_eq_false, if_false]
      split_ifs <;> simp
    · simp [h]
  | MinusOp l r ihl ihr | TimesOp l r ihl ihr | DivideOp l r ihl ihr | GtOp l r ihl ihr
  | LtOp l r ihl ihr | NeqOp l r ihl ihr | OrOp l r ihl ihr | EqOp l r ihl ihr
  | PlusOp l r ty ihl ihr =>
    obtain ⟨hrl, hcl, hsl⟩ := ihl
    obtain ⟨hrr, hcr, hsr⟩ := ihr
    simp only [semanticChecking, asConstructed, ← hrl, ← hcl, ← hrr, ← hcr]
    by_cases hl : (semanticChecking catalog L l).result = true
    · rw [← hsl hl]
      by_cases hr : (semanticChecking catalog L r).result = true
      · rw [← hsr hr]
        simp only [hl, hr, Bool.true_eq_false, if_false]
        split_ifs <;> simp
      · simp [hl, hr]
    · simp [hl]

/-- The sample catalog `employeesCatalog` holds mapped types only. -/
theorem employeesCatalog_mapped : mappedTypes employeesCatalog := by
  intro key v h
  simp only [employeesCatalog] at h
  split_ifs at h
  left
  exact (Option.some.inj h).symm

/-- A second check under the same catalog and table list repeats the first. -/
theorem check_twice (catalog : MyDB_Catalog) (L : TableList) (e : ExprTree) :
    semanticChecking catalog L (semanticChecking catalog L e).self =
      semanticChecking catalog L e := by
  induction e with
  | Identifier t a ty =>
    simp only [semanticChecking]
    split
    · rename_i h
      simp only [semanticChecking, h, if_true]
    · rename_i h
      split
      · rename_i hv
        simp [semanticChecking, h, hv]
      · rename_i v hv
        split_ifs <;> simp_all [semanticChecking]
  | BoolLiteral _ => rfl
  | DoubleLiteral _ => rfl
  | IntLiteral _ => rfl
  | StringLiteral _ => rfl
  | _ =>
    simp only [semanticChecking]
    split_ifs <;> simp_all [semanticChecking, toString_after_check]

/-! ## Short-circuit and serialization -/

/-- C11: for every binary node over `(l, r)`, when the check of `l` returns false the
check of the node returns false, prints what the check of `l` printed, and leaves the
right operand `r` exactly as it was (so every stored type inside `r` is untouched):
`r` is not checked. -/
theorem left_failure_skips_right (catalog : MyDB_Catalog) (L : TableList) (l r : ExprTree)
    (h : (semanticChecking catalog L l).result = false) :
    (∀ op : ExprTree → ExprTree → ExprTree,
      op ∈ [MinusOp, TimesOp, DivideOp, GtOp, LtOp, EqOp, NeqOp, OrOp] →
        semanticChecking catalog L (op l r) =
          ⟨false, op (semanticChecking catalog L l).self r,
            (semanticChecking catalog L l).cout⟩) ∧
    (∀ ty : String,
        semanticChecking catalog L (PlusOp l r ty) =
          ⟨false, PlusOp (semanticChecking catalog L l).self r ty,
            (semanticChecking catalog L l).cout⟩) := by
  constructor
  · intro op hop
    simp only [List.mem_cons, List.mem_singleton, List.not_mem_nil, or_false] at hop
    rcases hop with rfl | rfl | rfl | rfl | rfl | rfl | rfl | rfl <;>
    simp only [semanticChecking, h, if_true]
  · intro ty
    simp only [semanticChecking, h, if_true]

/-- The left operand names an alias that is not in the table list; the right operand
would resolve to `"NUMERIC"` but keeps its placeholder, under `-` and under `+`. -/
theorem left_failure_skips_right_witness :
    (semanticChecking employeesCatalog [("employees", "e")]
        (newIdentifier "x" "salary")).result = false ∧
    getType (semanticChecking employeesCatalog [("employees", "e")]
        (newIdentifier "e" "salary")).self = "NUMERIC" ∧
    semanticChecking employeesCatalog [("employees", "e")]
        (MinusOp (newIdentifier "x" "salary") (newIdentifier "e" "salary")) =
      ⟨false, MinusOp (newIdentifier "x" "salary") (newIdentifier "e" "salary"),
        "Table x is not in the from clause.\n"⟩ ∧
    storedTypes (semanticChecking employeesCatalog [("employees", "e")]
        (newPlusOp (newIdentifier "x" "salary") (newIdentifier "e" "salary"))).self =
      ["", "IDENTIFIER", "IDENTIFIER"] :=
  have h := left_failure_skips_right employeesCatalog [("employees", "e")]
    (newIdentifier "x" "salary") (newIdentifier "e" "salary") (by decide)
  ⟨by decide, by decide,
   (h.1 MinusOp (List.mem_cons_self _ _)).trans (by decide),
   (congrArg (fun c : Checked => storedTypes c.self) (h.2 "")).trans (by decide)⟩

/-- C12: the rendering of a tree after a check (successful or not) is its rendering
before the check; two trees with the same shape, literal values and identifier names
have the same rendering whatever types they store; `Identifier (t, a)` is always
rendered `[t_a]`. -/
theorem toString_ignores_stored_types (catalog : MyDB_Catalog) (L : TableList)
    (e : ExprTree) :
    ExprTree.toString (semanticChecking catalog L e).self = ExprTree.toString e ∧
    (∀ e2 : ExprTree, asConstructed e2 = asConstructed e →
      ExprTree.toString e2 = ExprTree.toString e) ∧
    (∀ t a ty : String,
      ExprTree.toString (Identifier t a ty) = "[" ++ t ++ "_" ++ a ++ "]") := by
  refine ⟨toString_after_check catalog L e, ?_, fun _ _ _ => rfl⟩
  intro e2 h2
  rw [← toString_asConstructed e2, h2, toString_asConstructed]

/-- A sum over an identifier, as constructed and with other stored types. -/
theorem toString_ignores_stored_types_witness :
    ExprTree.toString (PlusOp (Identifier "e" "salary" "NUMERIC") (IntLiteral 1) "NUMERIC")
      = ExprTree.toString (newPlusOp (newIdentifier "e" "salary") (IntLiteral 1)) ∧
    ExprTree.toString (newPlusOp (newIdentifier "e" "salary") (IntLiteral 1))
      = "+ ([e_salary], int[1])" :=
  ⟨(toString_ignores_stored_types emptyCatalog []
      (newPlusOp (newIdentifier "e" "salary") (IntLiteral 1))).2.1
      (PlusOp (Identifier "e" "salary" "NUMERIC") (IntLiteral 1) "NUMERIC") (by decide),
   by decide⟩

/-- C13, as stated, fails: the difference of two integer literals has clean payloads
and is rendered with two spaces. -/
theorem toString_whitespace_counterexample :
    cleanPayloads (MinusOp (IntLiteral 1) (IntLiteral 2)) = true ∧
    ExprTree.toString (MinusOp (IntLiteral 1) (IntLiteral 2)) = "- (int[1], int[2])" ∧
    whitespaceFree (ExprTree.toString (MinusOp (IntLiteral 1) (IntLiteral 2))) = false := by
  decide

/-- C13 (amended): for every tree whose string literal payloads and identifier names
contain no whitespace, the only whitespace characters of the rendering are spaces
(no tab, no newline), there are exactly two of them for each node with two operands
(from the fixed format `op (lhs, rhs)`), and the rendering is whitespace-free exactly
when the tree has no node with two operands. -/
theorem toString_whitespace (e : ExprTree) (h : cleanPayloads e = true) :
    blanksOnly (ExprTree.toString e) = true ∧
    spaces (ExprTree.toString e) = 2 * binaryNodes e ∧
    (whitespaceFree (ExprTree.toString e) = true ↔ binaryNodes e = 0) := by
  obtain ⟨hb, hs⟩ := toString_spaces e h
  refine ⟨hb, hs, ?_, ?_⟩
  · intro hw
    have := spaces_of_whitespaceFree _ hw
    omega
  · intro h0
    exact whitespaceFree_of_no_space _ hb (by omega)

/-- A tree without binary node is rendered without whitespace; a tree with two binary
nodes is rendered with four spaces. -/
theorem toString_whitespace_witness :
    whitespaceFree (ExprTree.toString (NotOp (SumOp (newIdentifier "e" "salary")))) = true ∧
    spaces (ExprTree.toString
      (GtOp (MinusOp (newIdentifier "e" "salary") (IntLiteral 1)) (IntLiteral 0))) = 4 :=
  ⟨(toString_whitespace (NotOp (SumOp (newIdentifier "e" "salary"))) (by decide)).2.2.mpr
      (by decide),
   (toString_whitespace
      (GtOp (MinusOp (newIdentifier "e" "salary") (IntLiteral 1)) (IntLiteral 0))
      (by decide)).2.1.trans (by decide)⟩

/-! ## Construction -/

/-- C14: on a NUL-free lexeme `s` of at least two characters the `StringLiteral`
constructor stores `s` without its first and without its last character, nothing else
removed: `s` is `a`, the stored characters, `b`.  The stored length is the length of
`s` minus two and the rendering is `string[` stored value `]`. -/
theorem stringLiteral_strips_ends (s : List Char) (hnul : ∀ c ∈ s, c ≠ Char.ofNat 0)
    (hlen : 2 ≤ s.length) :
    newStringLiteral s = some (StringLiteral (String.mk ((s.drop 1).dropLast))) ∧
    (∃ a b, s = a :: ((s.drop 1).dropLast ++ [b])) ∧
    (String.mk ((s.drop 1).dropLast)).length = s.length - 2 ∧
    ExprTree.toString (StringLiteral (String.mk ((s.drop 1).dropLast))) =
      "string[" ++ String.mk ((s.drop 1).dropLast) ++ "]" := by
  obtain ⟨a, b, hs, htake⟩ := strip_ends s hlen
  have hstr := strlen_of_nul_free s hnul
  refine ⟨?_, ⟨a, b, hs⟩, ?_, rfl⟩
  · unfold newStringLiteral
    rw [hstr, htake, if_neg (by omega)]
  · simp only [String.length, List.length_dropLast, List.length_drop]
    omega

/-- The lexeme `'hello'` gives the stored value `hello`, rendered `string[hello]`; a
lexeme with inner quotes keeps them. -/
theorem stringLiteral_strips_ends_witness :
    newStringLiteral ("'hello'" : String).data = some (StringLiteral "hello") ∧
    ExprTree.toString (StringLiteral "hello") = "string[hello]" ∧
    newStringLiteral ("''a''" : String).data = some (StringLiteral "'a'") :=
  ⟨(stringLiteral_strips_ends ("'hello'" : String).data (by decide) (by decide)).1.trans
      (by decide),
   by decide,
   (stringLiteral_strips_ends ("''a''" : String).data (by decide) (by decide)).1.trans
      (by decide)⟩

/-- C15, as stated, fails: a `-` node and a `>` node over a never-checked identifier
report `"NUMERIC"` and `"BOOL"` before any check. -/
theorem sentinel_before_check_counterexample :
    getType (newIdentifier "e" "salary") = "IDENTIFIER" ∧
    getType (MinusOp (newIdentifier "e" "salary") (IntLiteral 1)) = "NUMERIC" ∧
    getType (GtOp (newIdentifier "e" "salary") (IntLiteral 1)) = "BOOL" := by
  decide

/-- C15 (amended): an `Identifier` on which no check has succeeded (never checked, or
checked any number of times without success) reports `"IDENTIFIER"`, which is none of
`"NUMERIC"`, `"STRING"`, `"BOOL"`.  The operators `-`, `*`, `/`, `sum`, `avg` report
`"NUMERIC"` and `>`, `<`, `==`, `!=`, `||`, `!` report `"BOOL"` at any time, whether
the identifiers below them have been checked or not. -/
theorem sentinel_before_check :
    (∀ t a : String, getType (newIdentifier t a) = "IDENTIFIER") ∧
    (∀ (runs : List (MyDB_Catalog × TableList)) (t a : String),
      (∀ b ∈ checkResults runs (newIdentifier t a), b = false) →
        getType (afterChecks runs (newIdentifier t a)) = "IDENTIFIER") ∧
    (("IDENTIFIER" : String) ≠ "NUMERIC" ∧ ("IDENTIFIER" : String) ≠ "STRING" ∧
      ("IDENTIFIER" : String) ≠ "BOOL") ∧
    (∀ op : ExprTree → ExprTree → ExprTree, op ∈ [MinusOp, TimesOp, DivideOp] →
      ∀ l r : ExprTree, getType (op l r) = "NUMERIC") ∧
    (∀ op : ExprTree → ExprTree, op ∈ [SumOp, AvgOp] →
      ∀ c : ExprTree, getType (op c) = "NUMERIC") ∧
    (∀ op : ExprTree → ExprTree → ExprTree, op ∈ [GtOp, LtOp, EqOp, NeqOp, OrOp] →
      ∀ l r : ExprTree, getType (op l r) = "BOOL") ∧
    (∀ c : ExprTree, getType (NotOp c) = "BOOL") := by
  refine ⟨fun _ _ => rfl, ?_, by decide, ?_, ?_, ?_, fun _ => rfl⟩
  · intro runs t a h
    rw [newIdentifier] at h ⊢
    rw [identifier_after_failures runs t a _ h]
    rfl
  · intro op hop l r
    simp only [List.mem_cons, List.mem_singleton, List.not_mem_nil, or_false] at hop
    rcases hop with rfl | rfl | rfl <;> rfl
  · intro op hop c
    simp only [List.mem_cons, List.mem_singleton, List.not_mem_nil, or_false] at hop
    rcases hop with rfl | rfl <;> rfl
  · intro op hop l r
    simp only [List.mem_cons, List.mem_singleton, List.not_mem_nil, or_false] at hop
    rcases hop with rfl | rfl | rfl | rfl | rfl <;> rfl

/-- An identifier checked twice without success (unknown attribute, unknown alias). -/
theorem sentinel_before_check_witness :
    checkResults [(emptyCatalog, [("employees", "e")]), (employeesCatalog, [])]
      (newIdentifier "e" "salary") = [false, false] ∧
    getType (afterChecks [(emptyCatalog, [("employees", "e")]), (employeesCatalog, [])]
      (newIdentifier "e" "salary")) = "IDENTIFIER" :=
  ⟨by decide,
   sentinel_before_check.2.1
     [(emptyCatalog, [("employees", "e")]), (employeesCatalog, [])] "e" "salary"
     (by decide)⟩

/-! ## Repeated checks and dead branches -/

/-- C16, as stated, fails.  An identifier resolved by an earlier check keeps
`"NUMERIC"` when a later check under another catalog fails, where a fresh one reports
`"IDENTIFIER"`; and under a catalog with the physical type `"date"` the comparison
`day > 1` fails on a fresh tree but succeeds on a tree checked before under a catalog
where `day` is an `"int"`. -/
theorem check_from_scratch_counterexample :
    (getType (semanticChecking emptyCatalog [("employees", "e")]
        (newIdentifier "e" "salary")).self = "IDENTIFIER" ∧
     getType (semanticChecking emptyCatalog [("employees", "e")]
        (semanticChecking employeesCatalog [("employees", "e")]
          (newIdentifier "e" "salary")).self).self = "NUMERIC") ∧
    ((semanticChecking dateCatalog [("events", "ev")]
        (GtOp (newIdentifier "ev" "day") (IntLiteral 1))).result = false ∧
     (semanticChecking dateCatalog [("events", "ev")]
        (semanticChecking eventsCatalog [("events", "ev")]
          (GtOp (newIdentifier "ev" "day") (IntLiteral 1))).self).result = true) := by
  decide

/-- C16 (amended): under a catalog all of whose physical type strings are among
`"int"`, `"double"`, `"string"`, `"bool"`, and any table list, two trees of the same
shape, literal values and identifier names (such as a freshly constructed tree and the
same tree after a check under any other catalog) get the same boolean and the same
printed text from a check, and when that boolean is true the same tree afterwards,
hence the same `getType` at every node. -/
theorem check_from_scratch (catalog : MyDB_Catalog) (L : TableList)
    (hm : mappedTypes catalog) (e1 e2 : ExprTree)
    (hshape : asConstructed e1 = asConstructed e2) :
    (semanticChecking catalog L e1).result = (semanticChecking catalog L e2).result ∧
    (semanticChecking catalog L e1).cout = (semanticChecking catalog L e2).cout ∧
    ((semanticChecking catalog L e1).result = true →
      (semanticChecking catalog L e1).self = (semanticChecking catalog L e2).self) ∧
    (∀ (earlier : MyDB_Catalog) (L0 : TableList),
      asConstructed (semanticChecking earlier L0 e1).self = asConstructed e1) := by
  obtain ⟨a1, a2, a3⟩ := check_vs_constructed catalog L hm e1
  obtain ⟨b1, b2, b3⟩ := check_vs_constructed catalog L hm e2
  rw [hshape] at a1 a2 a3
  refine ⟨a1.trans b1.symm, a2.trans b2.symm, fun h => ?_,
    fun earlier L0 => asConstructed_after_check earlier L0 e1⟩
  rw [a3 h, b3 (b1.trans (a1.symm.trans h))]

/-- The tree `salary > 1`, fresh and after a check that resolved `salary` to
`"STRING"` through another table: under `employeesCatalog` both end as the same tree,
with `salary` resolved to `"NUMERIC"`. -/
theorem check_from_scratch_witness :
    getType (semanticChecking twoTablesCatalog [("managers", "e")]
      (newIdentifier "e" "salary")).self = "STRING" ∧
    (semanticChecking employeesCatalog [("employees", "e")]
      (GtOp (newIdentifier "e" "salary") (IntLiteral 1))).result = true ∧
    (semanticChecking employeesCatalog [("employees", "e")]
      (GtOp (newIdentifier "e" "salary") (IntLiteral 1))).self =
    (semanticChecking employeesCatalog [("employees", "e")]
      (semanticChecking twoTablesCatalog [("managers", "e")]
        (GtOp (newIdentifier "e" "salary") (IntLiteral 1))).self).self :=
  ⟨by decide, by decide,
   (check_from_scratch employeesCatalog [("employees", "e")] employeesCatalog_mapped
      (GtOp (newIdentifier "e" "salary") (IntLiteral 1))
      (semanticChecking twoTablesCatalog [("managers", "e")]
        (GtOp (newIdentifier "e" "salary") (IntLiteral 1))).self
      (by decide)).2.2.1 (by decide)⟩

/-- C17: in `MinusOp`, `TimesOp`, `DivideOp` and `OrOp` the same-type step never
fails.  Each of the four checks is the function that, once both operands have checked,
succeeds when both report `"NUMERIC"` (for `||`: `"BOOL"`) and otherwise prints the
"must be numeric" (for `||`: "must be boolean") text; and no check of any tree prints
the "must have the same type" text of one of these four operators. -/
theorem same_type_step_never_fails (catalog : MyDB_Catalog) (L : TableList)
    (l r : ExprTree) :
    (semanticChecking catalog L (MinusOp l r) =
      if (semanticChecking catalog L l).result = false then
        ⟨false, MinusOp (semanticChecking catalog L l).self r,
          (semanticChecking catalog L l).cout⟩
      else if (semanticChecking catalog L r).result = false then
        ⟨false, MinusOp (semanticChecking catalog L l).self (semanticChecking catalog L r).self,
          (semanticChecking catalog L r).cout⟩
      else if getType (semanticChecking catalog L l).self = "NUMERIC" ∧
          getType (semanticChecking catalog L r).self = "NUMERIC" then
        ⟨true, MinusOp (semanticChecking catalog L l).self (semanticChecking catalog L r).self,
          ""⟩
      else
        ⟨false, MinusOp (semanticChecking catalog L l).self (semanticChecking catalog L r).self,
          "rhs type is " ++ getType (semanticChecking catalog L r).self ++ "\n"
            ++ "Operands of - operator must be numeric.\n"⟩) ∧
    (semanticChecking catalog L (TimesOp l r) =
      if (semanticChecking catalog L l).result = false then
        ⟨false, TimesOp (semanticChecking catalog L l).self r,
          (semanticChecking catalog L l).cout⟩
      else if (semanticChecking catalog L r).result = false then
        ⟨false, TimesOp (semanticChecking catalog L l).self (semanticChecking catalog L r).self,
          (semanticChecking catalog L r).cout⟩
      else if getType (semanticChecking catalog L l).self = "NUMERIC" ∧
          getType (semanticChecking catalog L r).self = "NUMERIC" then
        ⟨true, TimesOp (semanticChecking catalog L l).self (semanticChecking catalog L r).self,
          ""⟩
      else
        ⟨false, TimesOp (semanticChecking catalog L l).self (semanticChecking catalog L r).self,
          "Operands of * operator must be numeric. lhs's type: "
            ++ getType (semanticChecking catalog L l).self ++ " rhs's type: "
            ++ getType (semanticChecking catalog L r).self ++ "\n"⟩) ∧
    (semanticChecking catalog L (DivideOp l r) =
      if (semanticChecking catalog L l).result = false then
        ⟨false, DivideOp (semanticChecking catalog L l).self r,
          (semanticChecking catalog L l).cout⟩
      else if (semanticChecking catalog L r).result = false then
        ⟨false, DivideOp (semanticChecking catalog L l).self (semanticChecking catalog L r).self,
          (semanticChecking catalog L r).cout⟩
      else if getType (semanticChecking catalog L l).self = "NUMERIC" ∧
          getType (semanticChecking catalog L r).self = "NUMERIC" then
        ⟨true, DivideOp (semanticChecking catalog L l).self (semanticChecking catalog L r).self,
          ""⟩
      else
        ⟨false, DivideOp (semanticChecking catalog L l).self (semanticChecking catalog L r).self,
          "Operands of / operator must be numeric. lhs's type: "
            ++ getType (semanticChecking catalog L l).self ++ " rhs's type: "
            ++ getType (semanticChecking catalog L r).self ++ "\n"⟩) ∧
    (semanticChecking catalog L (OrOp l r) =
      if (semanticChecking catalog L l).result = false then
        ⟨false, OrOp (semanticChecking catalog L l).self r,
          (semanticChecking catalog L l).cout⟩
      else if (semanticChecking catalog L r).result = false then
        ⟨false, OrOp (semanticChecking catalog L l).self (semanticChecking catalog L r).self,
          (semanticChecking catalog L r).cout⟩
      else if getType (semanticChecking catalog L l).self = "BOOL" ∧
          getType (semanticChecking catalog L r).self = "BOOL" then
        ⟨true, OrOp (semanticChecking catalog L l).self (semanticChecking catalog L r).self,
          ""⟩
      else
        ⟨false, OrOp (semanticChecking catalog L l).self (semanticChecking catalog L r).self,
          "Operands of || operator must be boolean. lhs's type: "
            ++ getType (semanticChecking catalog L l).self ++ " rhs's type: "
            ++ getType (semanticChecking catalog L r).self ++ "\n"⟩) ∧
    (∀ (e : ExprTree) (x y : String),
      (semanticChecking catalog L e).cout ≠
        "Operands of - operator must have the same type. lhs's type: "
          ++ x ++ " rhs's type: " ++ y ++ "\n" ∧
      (semanticChecking catalog L e).cout ≠
        "Operands of * operator must have the same type. lhs's type: "
          ++ x ++ " rhs's type: " ++ y ++ "\n" ∧
      (semanticChecking catalog L e).cout ≠
        "Operands of / operator must have the same type. lhs's type: "
          ++ x ++ " rhs's type: " ++ y ++ "\n" ∧
      (semanticChecking catalog L e).cout ≠
        "Operands of || operator must have the same type. lhs's type: "
          ++ x ++ " rhs's type: " ++ y ++ "\n") := by
  have hz := toString_ne_zero (semanticChecking catalog L r).self
  refine ⟨?_, ?_, ?_, ?_, never_same_type_text catalog L⟩ <;>
  · simp only [semanticChecking, hz, if_false]
    by_cases hl : (semanticChecking catalog L l).result = true
    · have hl0 := cout_empty_of_success catalog L l hl
      by_cases hr : (semanticChecking catalog L r).result = true
      · have hr0 := cout_empty_of_success catalog L r hr
        simp only [hl, hr, hl0, hr0, String.empty_append, Bool.true_eq_false, if_false]
        split_ifs <;> simp_all
      · simp [hl, hr, hl0]
    · simp [hl]

/-- C18: no tree is rendered as the bare text `0`; hence the division-by-zero branch
of `DivideOp::semanticChecking` is never taken (no check of any tree prints its text):
for all operands, catalogs and table lists the check of `DivideOp (l, r)` returns the
boolean that the check of `TimesOp (l, r)` returns and leaves the same operands, hence
the same stored types. -/
theorem divide_checks_as_times (catalog : MyDB_Catalog) (L : TableList) (l r : ExprTree) :
    (∀ e : ExprTree, ExprTree.toString e ≠ "0") ∧
    (semanticChecking catalog L (DivideOp l r)).result =
      (semanticChecking catalog L (TimesOp l r)).result ∧
    storedTypes (semanticChecking catalog L (DivideOp l r)).self =
      storedTypes (semanticChecking catalog L (TimesOp l r)).self ∧
    (∃ l2 r2, (semanticChecking catalog L (DivideOp l r)).self = DivideOp l2 r2 ∧
      (semanticChecking catalog L (TimesOp l r)).self = TimesOp l2 r2) ∧
    (∀ e : ExprTree, (semanticChecking catalog L e).cout ≠ "Division by zero.\n") := by
  have hz := toString_ne_zero (semanticChecking catalog L r).self
  refine ⟨toString_ne_zero, ?_, ?_, ?_, never_division_by_zero_text catalog L⟩
  · simp only [semanticChecking, hz, if_false]
    split_ifs <;> simp
  · simp only [semanticChecking, hz, if_false]
    split_ifs <;> simp [storedTypes]
  · simp only [semanticChecking, hz, if_false]
    split_ifs <;> simp

/-- C19: for every tree whose root is not an `Identifier`, if the check of the root
returns true then the root reports one of `"NUMERIC"`, `"STRING"`, `"BOOL"`
afterwards. -/
theorem root_type_after_success (catalog : MyDB_Catalog) (L : TableList) (e : ExprTree)
    (hid : isIdentifier e = false)
    (h : (semanticChecking catalog L e).result = true) :
    getType (semanticChecking catalog L e).self = "NUMERIC" ∨
    getType (semanticChecking catalog L e).self = "STRING" ∨
    getType (semanticChecking catalog L e).self = "BOOL" := by
  cases e with
  | Identifier t a ty => simp [isIdentifier] at hid
  | PlusOp l r ty =>
    revert h
    simp only [semanticChecking]
    split_ifs <;> simp [getType]
  | _ =>
    revert h
    simp only [semanticChecking]
    first
      | (simp [getType]; done)
      | (split_ifs <;> simp [getType])

/-- A `+` as constructed reports the empty string and `"STRING"` after its successful
check; a `+` over two identifiers of unmapped physical type does not check. -/
theorem root_type_after_success_witness :
    getType (newPlusOp (StringLiteral "a") (StringLiteral "b")) = "" ∧
    getType (semanticChecking emptyCatalog []
      (newPlusOp (StringLiteral "a") (StringLiteral "b"))).self = "STRING" ∧
    (semanticChecking dateCatalog [("events", "ev")]
      (newPlusOp (newIdentifier "ev" "day") (newIdentifier "ev" "day"))).result = false :=
  ⟨by decide,
   (root_type_after_success emptyCatalog []
      (newPlusOp (StringLiteral "a") (StringLiteral "b")) (by decide) (by decide)).elim
     (fun h => absurd h (by decide))
     (fun h => h.elim id (fun h2 => absurd h2 (by decide))),
   by decide⟩

/-- C20: for every tree in any state, a second check under the same catalog and table
list returns the boolean of the first, prints the same text, and leaves the tree, hence
every stored type, exactly as the first check left it. -/
theorem check_idempotent (catalog : MyDB_Catalog) (L : TableList) (e : ExprTree) :
    (semanticChecking catalog L (semanticChecking catalog L e).self).result =
      (semanticChecking catalog L e).result ∧
    (semanticChecking catalog L (semanticChecking catalog L e).self).self =
      (semanticChecking catalog L e).self ∧
    storedTypes (semanticChecking catalog L (semanticChecking catalog L e).self).self =
      storedTypes (semanticChecking catalog L e).self ∧
    (semanticChecking catalog L (semanticChecking catalog L e).self).cout =
      (semanticChecking catalog L e).cout := by
  rw [check_twice catalog L e]
  exact ⟨rfl, rfl, rfl, rfl⟩
